import Mathlib

/-!
# N-Impress web front end: contact form validation and theme store

A shallow embedding of the stateful logic of the React application:

* `src/pages/Contact.js`: `validateForm` and `handleSubmit`, together with the
  ECMAScript primitives they rely on (`String.prototype.trim`, `RegExp.prototype.test`
  for the literal `/^[^\s@]+@[^\s@]+\.[^\s@]+$/`);
* `src/contexts/ThemeContext.js`: the `ThemeProvider` state, its mount effect and
  `toggleTheme`, over a model of `localStorage`;
* `src/styles/themes.js`: the two palettes.

React state cells become fields of explicit state records; a handler is a function from
the state of the render it closes over to the state of the next render, together with the
side effects it performed.
-/

namespace NImpress

/-! ## ECMAScript strings -/

/-- A JavaScript string value: a finite sequence of UTF-16 code units. Form field values are
inspected unit by unit (by `trim` and by the regular expression, which has no `u` flag). -/
abbrev JSString := List Nat

/-- UTF-16 encoding of one Unicode scalar value. -/
def utf16Char (c : Char) : List Nat :=
  if c.toNat < 0x10000 then [c.toNat]
  else [0xD800 + (c.toNat - 0x10000) / 0x400, 0xDC00 + (c.toNat - 0x10000) % 0x400]

/-- The JavaScript string denoted by a string literal. -/
def js (s : String) : JSString :=
  (s.data.map utf16Char).flatten

/-- ECMAScript `WhiteSpace` or `LineTerminator` code units: the set stripped by
`String.prototype.trim` and matched by the regular expression class `\s`. -/
def isWhiteSpace (c : Nat) : Bool :=
  c == 0x0009 || c == 0x000A || c == 0x000B || c == 0x000C || c == 0x000D ||
  c == 0x0020 || c == 0x00A0 || c == 0x1680 || (0x2000 ≤ c && c ≤ 0x200A) ||
  c == 0x2028 || c == 0x2029 || c == 0x202F || c == 0x205F || c == 0x3000 ||
  c == 0xFEFF

/-- `String.prototype.trimStart`. -/
def trimStart (s : JSString) : JSString :=
  s.dropWhile isWhiteSpace

/-- `String.prototype.trimEnd`. -/
def trimEnd (s : JSString) : JSString :=
  (s.reverse.dropWhile isWhiteSpace).reverse

/-- `String.prototype.trim`. -/
def trim (s : JSString) : JSString :=
  trimEnd (trimStart s)

/-- JavaScript truthiness of a string value: every string but the empty one. -/
def truthy (s : JSString) : Bool :=
  !s.isEmpty

/-! ## Regular expressions -/

/-- Regular expression syntax, enough for the pattern of `validateForm`: character classes,
concatenation, alternation and repetition. -/
inductive RE where
  | empty : RE
  | eps : RE
  | cls (p : Nat → Bool) : RE
  | seq (r q : RE) : RE
  | alt (r q : RE) : RE
  | star (r : RE) : RE

namespace RE

/-- The quantifier `+`: one or more repetitions. -/
def plus (r : RE) : RE :=
  seq r (star r)

/-- Whether the expression accepts the empty string. -/
def nullable : RE → Bool
  | empty => false
  | eps => true
  | cls _ => false
  | seq r q => nullable r && nullable q
  | alt r q => nullable r || nullable q
  | star _ => true

/-- Brzozowski derivative of an expression by one code unit. -/
def deriv (c : Nat) : RE → RE
  | empty => empty
  | eps => empty
  | cls p => if p c then eps else empty
  | seq r q => if nullable r then alt (seq (deriv c r) q) (deriv c q) else seq (deriv c r) q
  | alt r q => alt (deriv c r) (deriv c q)
  | star r => seq (deriv c r) (star r)

/-- Whole-string match, the meaning of `^r$` without the multiline flag. -/
def fullMatch (r : RE) : JSString → Bool
  | [] => nullable r
  | c :: s => fullMatch (deriv c r) s

end RE

/-- The class `[^\s@]`: any code unit that is neither white space nor `@` (U+0040). -/
def notSpaceAt (c : Nat) : Bool :=
  !(isWhiteSpace c || c == 0x40)

/-- The class of the escaped literal `\.` (U+002E). -/
def isDot (c : Nat) : Bool :=
  c == 0x2E

/-- The class of the literal `@` (U+0040). -/
def isAt (c : Nat) : Bool :=
  c == 0x40

/-- The body of `const emailRegex = /^[^\s@]+@[^\s@]+\.[^\s@]+$/` between its anchors. -/
def emailRegex : RE :=
  RE.seq (RE.plus (RE.cls notSpaceAt))
    (RE.seq (RE.cls isAt)
      (RE.seq (RE.plus (RE.cls notSpaceAt))
        (RE.seq (RE.cls isDot) (RE.plus (RE.cls notSpaceAt)))))

/-- The call `emailRegex.test(s)`: the pattern is anchored at both ends and carries no flags, so
the test is a whole-string match and keeps no state between calls. -/
def emailRegexTest (s : JSString) : Bool :=
  emailRegex.fullMatch s

/-! ## Contact page (`src/pages/Contact.js`) -/

/-- The `formData` state object of the `Contact` component. -/
structure FormData where
  name : JSString
  email : JSString
  message : JSString
  deriving DecidableEq, Repr

/-- The `errors` state object: a JavaScript object on which each of the keys `name`, `email`
and `message` is either absent (`none`) or bound to a message string. -/
structure Errors where
  name : Option JSString
  email : Option JSString
  message : Option JSString
  deriving DecidableEq, Repr

/-- The empty object literal `{}`. -/
def Errors.none : Errors :=
  ⟨Option.none, Option.none, Option.none⟩

/-- The array `Object.keys(errors)`: the keys present, in insertion order. -/
def Errors.keys (e : Errors) : List JSString :=
  (if e.name.isSome then [js "name"] else []) ++
  (if e.email.isSome then [js "email"] else []) ++
  (if e.message.isSome then [js "message"] else [])

/-- Whether the view shows an error under a field: the JSX guard `errors.f && ...` renders the
message when the key is bound to a truthy string. -/
def shown (m : Option JSString) : Bool :=
  match m with
  | Option.none => false
  | some t => truthy t

/-- The React state of the `Contact` component. -/
structure ContactState where
  formData : FormData
  errors : Errors
  deriving DecidableEq, Repr

/-- The first render: `useState` with three empty fields, and `useState` with `{}`. -/
def ContactState.initial : ContactState :=
  ⟨⟨[], [], []⟩, Errors.none⟩

/-- Observable side effects of the submit handler. -/
inductive Effect where
  | preventDefault : Effect
  | consoleLog (label : JSString) (data : FormData) : Effect
  | alert (text : JSString) : Effect
  deriving DecidableEq, Repr

/-- The function `validateForm` on the form data of the current render. It returns the object
passed to `setErrors` and the boolean it returns to its caller. -/
def validateForm (formData : FormData) : Errors × Bool :=
  let newErrors : Errors := Errors.none
  let newErrors :=
    if !truthy (trim formData.name) then
      { newErrors with name := some (js "Name is required") }
    else newErrors
  let newErrors :=
    if !truthy (trim formData.email) then
      { newErrors with email := some (js "Email is required") }
    else if !emailRegexTest formData.email then
      { newErrors with email := some (js "Please enter a valid email address") }
    else newErrors
  let newErrors :=
    if !truthy (trim formData.message) then
      { newErrors with message := some (js "Message is required") }
    else newErrors
  (newErrors, newErrors.keys.length == 0)

/-- The text shown by `alert` after a successful submission. -/
def successText : JSString :=
  js "Thank you for your message! We will get back to you soon."

/-- The handler `handleSubmit`: the state of the next render and the effects performed. -/
def handleSubmit (s : ContactState) : ContactState × List Effect :=
  let (newErrors, valid) := validateForm s.formData
  if valid then
    (⟨⟨[], [], []⟩, newErrors⟩,
      [Effect.preventDefault, Effect.consoleLog (js "Form submitted:") s.formData,
        Effect.alert successText])
  else
    (⟨s.formData, newErrors⟩, [Effect.preventDefault])

/-- Number of success signals (calls of `alert`) among the effects of a handler. -/
def alertCount (es : List Effect) : Nat :=
  (es.filter fun e => match e with
    | Effect.alert _ => true
    | _ => false).length

/-- The three inputs of the form, told apart by their `name` attribute. -/
inductive Field where
  | name : Field
  | email : Field
  | message : Field
  deriving DecidableEq, Repr

/-- Property read `formData[name]`. -/
def FormData.get (d : FormData) : Field → JSString
  | Field.name => d.name
  | Field.email => d.email
  | Field.message => d.message

/-- The object spread `{ ...prev, [name]: value }` on form data. -/
def FormData.set (d : FormData) (fieldName : Field) (value : JSString) : FormData :=
  match fieldName with
  | Field.name => { d with name := value }
  | Field.email => { d with email := value }
  | Field.message => { d with message := value }

/-- Property read `errors[name]`; `none` is `undefined`. -/
def Errors.get (e : Errors) : Field → Option JSString
  | Field.name => e.name
  | Field.email => e.email
  | Field.message => e.message

/-- The object spread `{ ...prev, [name]: value }` on the errors object. -/
def Errors.set (e : Errors) (fieldName : Field) (value : JSString) : Errors :=
  match fieldName with
  | Field.name => { e with name := some value }
  | Field.email => { e with email := some value }
  | Field.message => { e with message := some value }

/-- The handler `handleChange` for a change event whose target has the given `name` and
`value`: the state of the next render. -/
def handleChange (s : ContactState) (fieldName : Field) (value : JSString) : ContactState :=
  let formData := s.formData.set fieldName value
  let errors :=
    if shown (s.errors.get fieldName) then s.errors.set fieldName (js "") else s.errors
  ⟨formData, errors⟩

/-! ## Palettes (`src/styles/themes.js`) -/

/-- The `colors` object of a theme. -/
structure Colors where
  primary : JSString
  secondary : JSString
  accent : JSString
  background : JSString
  text : JSString
  deriving DecidableEq, Repr

/-- A theme object handed to styled-components. -/
structure Theme where
  colors : Colors
  deriving DecidableEq, Repr

/-- The exported constant `lightTheme`. -/
def lightTheme : Theme :=
  ⟨⟨js "#FF00FF", js "#90EE90", js "#FFFF00", js "#FFFFFF", js "#000000"⟩⟩

/-- The exported constant `darkTheme`. -/
def darkTheme : Theme :=
  ⟨⟨js "#8B008B", js "#006400", js "#B8860B", js "#000000", js "#FFFFFF"⟩⟩

/-! ## Theme store (`src/contexts/ThemeContext.js`) -/

/-- A value thrown by JavaScript code. -/
inductive JSException where
  | error (message : JSString) : JSException
  | domException (name : JSString) : JSException
  deriving DecidableEq, Repr

deriving instance DecidableEq for Except

/-- The host object `localStorage`: either unusable (every access throws) or a key-value
table of strings. -/
inductive LocalStorage where
  | unavailable : LocalStorage
  | available (entries : List (JSString × JSString)) : LocalStorage
  deriving DecidableEq, Repr

/-- The call `localStorage.getItem(key)`; `none` is the JavaScript `null`. -/
def LocalStorage.getItem (ls : LocalStorage) (key : JSString) :
    Except JSException (Option JSString) :=
  match ls with
  | unavailable => Except.error (JSException.domException (js "SecurityError"))
  | available entries => Except.ok (entries.lookup key)

/-- The call `localStorage.setItem(key, value)`. -/
def LocalStorage.setItem (ls : LocalStorage) (key value : JSString) :
    Except JSException LocalStorage :=
  match ls with
  | unavailable => Except.error (JSException.domException (js "SecurityError"))
  | available entries =>
    Except.ok (available ((key, value) :: entries.filter fun e => e.1 != key))

/-- The theme store: the `theme` state cell of `ThemeProvider` and the storage it talks to. -/
structure ThemeStore where
  theme : JSString
  localStorage : LocalStorage
  deriving DecidableEq, Repr

/-- The store at the first render: `useState` with the string `light`. -/
def ThemeStore.initial (ls : LocalStorage) : ThemeStore :=
  ⟨js "light", ls⟩

/-- The body of the mount effect of `ThemeProvider`: the store as the body leaves it, and the
exception that escaped, if any. When `getItem` throws, the body stops before `setTheme`, so
the first component is the store at the moment of the throw; nothing catches the exception,
and what React then does with the component tree is `mountApp`. -/
def mountEffect (st : ThemeStore) : ThemeStore × Option JSException :=
  match st.localStorage.getItem (js "theme") with
  | Except.error e => (st, some e)
  | Except.ok Option.none => (st, Option.none)
  | Except.ok (some storedTheme) =>
    if truthy storedTheme then ({ st with theme := storedTheme }, Option.none)
    else (st, Option.none)

/-- The function `toggleTheme` on the store of the current render. The state update is queued
before the storage write, so it takes place even when the write throws. -/
def toggleTheme (st : ThemeStore) : ThemeStore × Option JSException :=
  let newTheme := if st.theme = js "light" then js "dark" else js "light"
  match st.localStorage.setItem (js "theme") newTheme with
  | Except.error e => ({ st with theme := newTheme }, some e)
  | Except.ok ls => (⟨newTheme, ls⟩, Option.none)

/-- The constant `currentTheme` computed at each render from the `theme` state. -/
def currentTheme (theme : JSString) : Theme :=
  if theme = js "light" then lightTheme else darkTheme

/-- Application start: first render followed by the mount effect. The store component is
the store of the running application only when no exception escaped (see `mountApp`). -/
def startup (ls : LocalStorage) : ThemeStore × Option JSException :=
  mountEffect (ThemeStore.initial ls)

/-- What `root.render` leaves on the page after application start. -/
inductive AppTree where
  | mounted (store : ThemeStore) : AppTree
  | unmounted (error : JSException) : AppTree
  deriving DecidableEq, Repr

/-- The component tree after application start. Neither `index.js` nor `App.js` sets up an
error boundary, so an exception that escapes the mount effect makes React unmount the whole
tree: no theme store, navigation bar or toggle button remains. -/
def mountApp (ls : LocalStorage) : AppTree :=
  match startup ls with
  | (st, Option.none) => AppTree.mounted st
  | (_, some e) => AppTree.unmounted e

/-- The host takes the storage away while the application is mounted (site data blocked,
storage access revoked): the state cell is untouched, every later storage call throws. -/
def loseStorage (st : ThemeStore) : ThemeStore :=
  { st with localStorage := LocalStorage.unavailable }

/-- The store after `n` successive calls of `toggleTheme`, each on the store left by the
previous one. -/
def toggleTimes : Nat → ThemeStore → ThemeStore
  | 0, st => st
  | n + 1, st => toggleTimes n (toggleTheme st).1

/-- The value persisted under the key `theme`, when the storage can be read. -/
def persisted (st : ThemeStore) : Except JSException (Option JSString) :=
  st.localStorage.getItem (js "theme")

/-- States of the theme store reachable from application start over a given storage by
calls of `toggleTheme`. A start whose mount effect let an exception escape leaves no store,
hence no reachable state. -/
inductive Reachable (ls : LocalStorage) : ThemeStore → Prop where
  | start : (startup ls).2 = Option.none → Reachable ls (startup ls).1
  | toggle {st : ThemeStore} : Reachable ls st → Reachable ls (toggleTheme st).1

/-! ## Theme consumer hook (`src/hooks/useTheme.js`) -/

/-- The object `{ theme, toggleTheme }` handed to `ThemeContext.Provider`. The function closes
over the `theme` of its render and reads the global `localStorage` when called. -/
structure ThemeContextValue where
  theme : JSString
  toggleTheme : LocalStorage → ThemeStore × Option JSException

/-- The context value provided by `ThemeProvider` at a render with the given store. -/
def ThemeProvider.value (st : ThemeStore) : ThemeContextValue :=
  ⟨st.theme, fun ls => toggleTheme ⟨st.theme, ls⟩⟩

/-- The call `useContext(ThemeContext)` in a component whose enclosing `ThemeContext.Provider`
elements carry the given values, innermost first. The context is made by `createContext()`
without a default, so outside every provider the result is `undefined` (`none`). -/
def useContext (providers : List ThemeContextValue) : Option ThemeContextValue :=
  providers.head?

/-- The hook `useTheme`, given the value read from the context: an object is truthy, so the
guard `!context` holds exactly for `undefined`. -/
def useTheme (context : Option ThemeContextValue) : Except JSException ThemeContextValue :=
  match context with
  | Option.none =>
    Except.error (JSException.error (js "useTheme must be used within a ThemeProvider"))
  | some value => Except.ok value

/-! ## Navigation bar (`src/components/NavBar.js`) -/

/-- Props of a `StyledNavLink` element: the target `to`, the `end` flag and the link text. -/
structure NavLinkProps where
  toPath : JSString
  endProp : Bool
  label : JSString
  deriving DecidableEq, Repr

/-- The children of `NavLinks`, the desktop link row. -/
def navLinks : List NavLinkProps :=
  [⟨js "/", true, js "Home"⟩, ⟨js "/products", false, js "Products"⟩,
    ⟨js "/services", false, js "Services"⟩, ⟨js "/about", false, js "About"⟩,
    ⟨js "/contact", false, js "Contact"⟩]

/-- The children of `MobileMenu`; each of them carries `onClick={toggleMenu}`. -/
def mobileMenuLinks : List NavLinkProps :=
  [⟨js "/", true, js "Home"⟩, ⟨js "/products", false, js "Products"⟩,
    ⟨js "/services", false, js "Services"⟩, ⟨js "/about", false, js "About"⟩,
    ⟨js "/contact", false, js "Contact"⟩]

/-- The local state of `NavBar`: the `isOpen` cell. -/
structure NavBarState where
  isOpen : Bool
  deriving DecidableEq, Repr

/-- The first render: `useState(false)`. -/
def NavBarState.initial : NavBarState :=
  ⟨false⟩

/-- The function `toggleMenu`: `setIsOpen(!isOpen)`. -/
def toggleMenu (s : NavBarState) : NavBarState :=
  ⟨!s.isOpen⟩

/-- The links rendered inside `MobileMenu`: the element exists only under `isOpen &&`. -/
def renderedMobileLinks (s : NavBarState) : List NavLinkProps :=
  if s.isOpen then mobileMenuLinks else []

/-- User interactions with the navigation bar. -/
inductive NavEvent where
  | hamburger : NavEvent
  | mobileLink (link : NavLinkProps) : NavEvent
  | desktopLink (link : NavLinkProps) : NavEvent
  deriving DecidableEq, Repr

/-- One interaction with the navigation bar: the next state and the path navigated to, if
any; `none` when the element clicked is not rendered in the current state. -/
def navStep (s : NavBarState) : NavEvent → Option (NavBarState × Option JSString)
  | NavEvent.hamburger => some (toggleMenu s, Option.none)
  | NavEvent.mobileLink link =>
    if link ∈ renderedMobileLinks s then some (toggleMenu s, some link.toPath) else Option.none
  | NavEvent.desktopLink link =>
    if link ∈ navLinks then some (s, some link.toPath) else Option.none

/-- States of the navigation bar reachable from the first render by user interactions. -/
inductive NavReachable : NavBarState → Prop where
  | initial : NavReachable NavBarState.initial
  | step {s t : NavBarState} {ev : NavEvent} {nav : Option JSString} :
      NavReachable s → navStep s ev = some (t, nav) → NavReachable t

/-- ASCII lower-casing, the effect of `toLowerCase` on a URL pathname (pathnames are
percent-encoded, hence ASCII). -/
def toLowerCase (s : JSString) : JSString :=
  s.map fun c => if 0x41 ≤ c ∧ c ≤ 0x5A then c + 0x20 else c

/-- The `isActive` computation of React Router `NavLink` (version 6) for a link and the
current `location.pathname`, with the default `caseSensitive = false`. An active link gets the
class `active`, which `StyledNavLink` colours with the primary colour. -/
def isActive (link : NavLinkProps) (locationPathname : JSString) : Bool :=
  let locationPathname := toLowerCase locationPathname
  let toPathname := toLowerCase link.toPath
  let endSlashPosition :=
    if toPathname ≠ js "/" ∧ toPathname.getLast? = some 0x2F then toPathname.length - 1
    else toPathname.length
  locationPathname == toPathname ||
    (!link.endProp && toPathname.isPrefixOf locationPathname &&
      locationPathname.get? endSlashPosition == some 0x2F)

/-- The desktop links marked active at a pathname. -/
def activeLinks (locationPathname : JSString) : List NavLinkProps :=
  navLinks.filter fun link => isActive link locationPathname

/-- Values of the CSS `display` property used by the navigation bar. -/
inductive Display where
  | none : Display
  | flex : Display
  | block : Display
  deriving DecidableEq, Repr

/-- The media condition `(max-width: <limit>px)` at a viewport width in whole CSS pixels. -/
def maxWidth (limit width : Nat) : Bool :=
  decide (width ≤ limit)

/-- Computed `display` of `NavLinks`: `flex`, and `none` under `(max-width: 760px)`. -/
def navLinksDisplay (width : Nat) : Display :=
  if maxWidth 760 width then Display.none else Display.flex

/-- Computed `display` of `MobileMenu`: `none`, and `flex` under `(max-width: 760px)`. -/
def mobileMenuDisplay (width : Nat) : Display :=
  if maxWidth 760 width then Display.flex else Display.none

/-- Computed `display` of `Hamburger`: `none`, and `block` under `(max-width: 768px)`. -/
def hamburgerDisplay (width : Nat) : Display :=
  if maxWidth 768 width then Display.block else Display.none

/-- The mobile-menu links a user sees: those rendered, unless `MobileMenu` computes to
`display: none`. -/
def visibleMobileLinks (width : Nat) (s : NavBarState) : List NavLinkProps :=
  if mobileMenuDisplay width = Display.none then [] else renderedMobileLinks s

/-! ## Application shell (`src/App.js`) -/

/-- The lazily loaded page components. -/
inductive Page where
  | Landing : Page
  | Products : Page
  | Services : Page
  | AboutUs : Page
  | Contact : Page
  deriving DecidableEq, Repr

/-- The module each `lazy(() => import(...))` constant loads on first render. -/
def Page.module : Page → JSString
  | Page.Landing => js "./pages/Landing"
  | Page.Products => js "./pages/Products"
  | Page.Services => js "./pages/Services"
  | Page.AboutUs => js "./pages/AboutUs"
  | Page.Contact => js "./pages/Contact"

/-- Props of a `Route` element. -/
structure RouteProps where
  path : JSString
  element : Page
  deriving DecidableEq, Repr

/-- The children of `Routes`, in source order. -/
def routes : List RouteProps :=
  [⟨js "/", Page.Landing⟩, ⟨js "/products", Page.Products⟩, ⟨js "/services", Page.Services⟩,
    ⟨js "/about", Page.AboutUs⟩, ⟨js "/contact", Page.Contact⟩]

/-- Case folding of the regular expression flag `i` on the code units that can equal an ASCII
pattern unit: ASCII letters fold to upper case, every other unit to itself. -/
def canonicalize (c : Nat) : Nat :=
  if 0x61 ≤ c ∧ c ≤ 0x7A then c - 0x20 else c

/-- The code unit `/` (U+002F). -/
def isSlash (c : Nat) : Bool :=
  c == 0x2F

/-- React Router (version 6) `matchPath` for a static leaf route path that starts with `/`
and has no trailing `/` besides the root: the path compiles to the regular expression
`^<path>\/*$` with flag `i`, the path spelt out, then any number of trailing slashes. -/
def matchPath (path pathname : JSString) : Bool :=
  (pathname.take path.length).map canonicalize == path.map canonicalize &&
    (pathname.drop path.length).all isSlash

/-- The route entries whose path matches a pathname. -/
def matchingRoutes (pathname : JSString) : List RouteProps :=
  routes.filter fun r => matchPath r.path pathname

/-- The element rendered by `Routes` at a pathname: that of the first matching route (the
five paths are static, so ranking keeps the source order), nothing when no route matches. -/
def Routes (pathname : JSString) : Option Page :=
  (matchingRoutes pathname).head?.map fun r => r.element

/-! ## Specification vocabulary -/

/-- Denotation of a regular expression: the strings it matches as a whole. -/
inductive Matches : RE → JSString → Prop where
  | eps : Matches RE.eps []
  | cls {p : Nat → Bool} {c : Nat} : p c = true → Matches (RE.cls p) [c]
  | seq {r q : RE} {s t : JSString} :
      Matches r s → Matches q t → Matches (RE.seq r q) (s ++ t)
  | altL {r q : RE} {s : JSString} : Matches r s → Matches (RE.alt r q) s
  | altR {r q : RE} {s : JSString} : Matches q s → Matches (RE.alt r q) s
  | starNil {r : RE} : Matches (RE.star r) []
  | starCons {r : RE} {s t : JSString} :
      Matches r s → Matches (RE.star r) t → Matches (RE.star r) (s ++ t)

/-- A string with at least one code unit that is not white space. -/
def NonBlank (s : JSString) : Prop :=
  ∃ c ∈ s, isWhiteSpace c = false

/-- The email rule of the contact form: non-empty and matching the pattern of `emailRegex`. -/
def EmailValid (s : JSString) : Prop :=
  s ≠ [] ∧ Matches emailRegex s

/-- The acceptance condition with the bare non-emptiness reading of the required fields. -/
def AcceptedNonEmpty (f : FormData) : Prop :=
  f.name ≠ [] ∧ EmailValid f.email ∧ f.message ≠ []

/-- The acceptance condition of the validation rules: required fields carry visible content. -/
def AcceptedNonBlank (f : FormData) : Prop :=
  NonBlank f.name ∧ EmailValid f.email ∧ NonBlank f.message

/-- The description of an accepted email in words: no white space anywhere, exactly one `@`,
a non-empty local part before it, and after it a domain holding a `.` that is neither its
first nor its last code unit. -/
def EmailShape (s : JSString) : Prop :=
  (∀ c ∈ s, isWhiteSpace c = false) ∧ s.count 0x40 = 1 ∧
    ∃ localPart domain : JSString, s = localPart ++ 0x40 :: domain ∧ localPart ≠ [] ∧
      ∃ i, 0 < i ∧ i + 1 < domain.length ∧ domain.get? i = some 0x2E

/-! ## ECMAScript primitives: basic facts -/

theorem trimStart_eq_nil_iff (s : JSString) :
    trimStart s = [] ↔ ∀ c ∈ s, isWhiteSpace c = true := by
  simp [trimStart, List.dropWhile_eq_nil_iff]

theorem trimEnd_eq_nil_iff (s : JSString) :
    trimEnd s = [] ↔ ∀ c ∈ s, isWhiteSpace c = true := by
  simp [trimEnd, List.dropWhile_eq_nil_iff]

theorem trim_eq_nil_iff (s : JSString) :
    trim s = [] ↔ ∀ c ∈ s, isWhiteSpace c = true := by
  unfold trim
  rw [trimEnd_eq_nil_iff]
  constructor
  · intro h
    rw [← trimStart_eq_nil_iff]
    by_contra hne
    have hhead := List.head_dropWhile_not isWhiteSpace s hne
    have hmem : (List.dropWhile isWhiteSpace s).head hne ∈ trimStart s := List.head_mem hne
    rw [h _ hmem] at hhead
    exact absurd hhead (by decide)
  · intro h c hc
    exact h c (List.dropWhile_subset isWhiteSpace hc)

theorem truthy_trim_iff (s : JSString) : truthy (trim s) = true ↔ NonBlank s := by
  have h := trim_eq_nil_iff s
  unfold truthy NonBlank
  constructor
  · intro ht
    by_contra hno
    have hall : ∀ c ∈ s, isWhiteSpace c = true := by
      intro c hc
      by_contra hw
      exact hno ⟨c, hc, by simpa using hw⟩
    rw [h.2 hall] at ht
    exact absurd ht (by decide)
  · rintro ⟨c, hc, hw⟩
    cases hts : trim s with
    | nil => rw [h.1 hts c hc] at hw; exact absurd hw (by decide)
    | cons a t => rfl

theorem truthy_trim_eq_false_iff (s : JSString) : truthy (trim s) = false ↔ ¬ NonBlank s := by
  rw [← truthy_trim_iff]
  cases truthy (trim s) <;> simp

theorem not_nonBlank_nil : ¬ NonBlank [] := by
  rintro ⟨c, hc, _⟩
  cases hc

/-! ## Correctness of the derivative matcher -/

theorem matches_nil_of_nullable : ∀ r : RE, r.nullable = true → Matches r []
  | RE.empty, h => by simp [RE.nullable] at h
  | RE.eps, _ => Matches.eps
  | RE.cls _, h => by simp [RE.nullable] at h
  | RE.seq r q, h => by
    simp only [RE.nullable, Bool.and_eq_true] at h
    exact Matches.seq (matches_nil_of_nullable r h.1) (matches_nil_of_nullable q h.2)
  | RE.alt r q, h => by
    simp only [RE.nullable, Bool.or_eq_true] at h
    rcases h with h | h
    · exact Matches.altL (matches_nil_of_nullable r h)
    · exact Matches.altR (matches_nil_of_nullable q h)
  | RE.star _, _ => Matches.starNil

theorem nullable_of_matches {r : RE} {s : JSString} (h : Matches r s) :
    s = [] → r.nullable = true := by
  induction h with
  | eps => intro _; rfl
  | cls _ => intro h; cases h
  | seq _ _ ih1 ih2 =>
    intro h
    rw [List.append_eq_nil] at h
    simp [RE.nullable, ih1 h.1, ih2 h.2]
  | altL _ ih => intro h; simp [RE.nullable, ih h]
  | altR _ ih => intro h; simp [RE.nullable, ih h]
  | starNil => intro _; rfl
  | starCons _ _ _ _ => intro _; rfl

theorem nullable_iff (r : RE) : r.nullable = true ↔ Matches r [] :=
  ⟨matches_nil_of_nullable r, fun h => nullable_of_matches h rfl⟩

theorem matches_cons_of_deriv (c : Nat) :
    ∀ (r : RE) (s : JSString), Matches (r.deriv c) s → Matches r (c :: s)
  | RE.empty, s, h => by simp only [RE.deriv] at h; cases h
  | RE.eps, s, h => by simp only [RE.deriv] at h; cases h
  | RE.cls p, s, h => by
    simp only [RE.deriv] at h
    by_cases hp : p c = true
    · rw [if_pos hp] at h
      cases h
      exact Matches.cls hp
    · rw [if_neg hp] at h
      cases h
  | RE.seq r q, s, h => by
    simp only [RE.deriv] at h
    by_cases hn : r.nullable = true
    · rw [if_pos hn] at h
      cases h with
      | altL h1 =>
        cases h1 with
        | seq ha hb => exact Matches.seq (matches_cons_of_deriv c r _ ha) hb
      | altR h2 =>
        exact Matches.seq (matches_nil_of_nullable r hn) (matches_cons_of_deriv c q _ h2)
    · rw [if_neg hn] at h
      cases h with
      | seq ha hb => exact Matches.seq (matches_cons_of_deriv c r _ ha) hb
  | RE.alt r q, s, h => by
    simp only [RE.deriv] at h
    cases h with
    | altL h1 => exact Matches.altL (matches_cons_of_deriv c r _ h1)
    | altR h2 => exact Matches.altR (matches_cons_of_deriv c q _ h2)
  | RE.star r, s, h => by
    simp only [RE.deriv] at h
    cases h with
    | seq ha hb => exact Matches.starCons (matches_cons_of_deriv c r _ ha) hb

theorem deriv_of_matches_cons {r : RE} {x : JSString} (h : Matches r x) :
    ∀ (c : Nat) (s : JSString), x = c :: s → Matches (r.deriv c) s := by
  induction h with
  | eps => intro c s h; cases h
  | cls hp =>
    intro c s h
    cases h
    simp only [RE.deriv, if_pos hp]
    exact Matches.eps
  | @seq r q s1 t h1 h2 ih1 ih2 =>
    intro c s h
    cases s1 with
    | nil =>
      have hn : r.nullable = true := nullable_of_matches h1 rfl
      simp only [RE.deriv, if_pos hn]
      exact Matches.altR (ih2 c s h)
    | cons a s1 =>
      cases h
      have hd : Matches (RE.seq (r.deriv c) q) (s1 ++ t) := Matches.seq (ih1 c s1 rfl) h2
      by_cases hn : r.nullable = true
      · simp only [RE.deriv, if_pos hn]
        exact Matches.altL hd
      · simp only [RE.deriv, if_neg hn]
        exact hd
  | altL _ ih => intro c s h; exact Matches.altL (ih c s h)
  | altR _ ih => intro c s h; exact Matches.altR (ih c s h)
  | starNil => intro c s h; cases h
  | @starCons r s1 t h1 h2 ih1 ih2 =>
    intro c s h
    cases s1 with
    | nil => exact ih2 c s h
    | cons a s1 =>
      cases h
      exact Matches.seq (ih1 c s1 rfl) h2

theorem fullMatch_iff : ∀ (s : JSString) (r : RE), r.fullMatch s = true ↔ Matches r s
  | [], r => nullable_iff r
  | c :: s, r => by
    simp only [RE.fullMatch]
    rw [fullMatch_iff s (r.deriv c)]
    exact ⟨matches_cons_of_deriv c r s, fun h => deriv_of_matches_cons h c s rfl⟩

theorem emailRegexTest_iff (s : JSString) : emailRegexTest s = true ↔ Matches emailRegex s :=
  fullMatch_iff s emailRegex

theorem emailRegexTest_eq_false_iff (s : JSString) :
    emailRegexTest s = false ↔ ¬ Matches emailRegex s := by
  rw [← emailRegexTest_iff]
  cases emailRegexTest s <;> simp

/-- Every string matched by the pattern starts with a code unit of the class `[^\s@]`. -/
theorem head_of_matches_emailRegex {s : JSString} (h : Matches emailRegex s) :
    ∃ c t, s = c :: t ∧ notSpaceAt c = true := by
  unfold emailRegex RE.plus at h
  cases h with
  | seq h1 _ =>
    cases h1 with
    | seq ha _ =>
      cases ha with
      | cls hp => exact ⟨_, _, rfl, hp⟩

theorem nonBlank_of_matches_emailRegex {s : JSString} (h : Matches emailRegex s) :
    NonBlank s := by
  obtain ⟨c, t, rfl, hc⟩ := head_of_matches_emailRegex h
  refine ⟨c, List.mem_cons_self c t, ?_⟩
  unfold notSpaceAt at hc
  cases hw : isWhiteSpace c
  · rfl
  · rw [hw] at hc
    simp at hc

/-! ## Contact form: validation -/

theorem validateForm_fst (f : FormData) :
    (validateForm f).1 =
      ⟨if truthy (trim f.name) = true then Option.none else some (js "Name is required"),
        if truthy (trim f.email) = true then
          (if emailRegexTest f.email = true then Option.none
            else some (js "Please enter a valid email address"))
        else some (js "Email is required"),
        if truthy (trim f.message) = true then Option.none
        else some (js "Message is required")⟩ := by
  unfold validateForm
  cases truthy (trim f.name) <;> cases truthy (trim f.email) <;>
    cases emailRegexTest f.email <;> cases truthy (trim f.message) <;> rfl

theorem validateForm_snd (f : FormData) :
    (validateForm f).2 =
      (truthy (trim f.name) && (truthy (trim f.email) && emailRegexTest f.email) &&
        truthy (trim f.message)) := by
  unfold validateForm
  cases truthy (trim f.name) <;> cases truthy (trim f.email) <;>
    cases emailRegexTest f.email <;> cases truthy (trim f.message) <;> rfl

theorem validateForm_accepts_iff (f : FormData) :
    (validateForm f).2 = true ↔ AcceptedNonBlank f := by
  rw [validateForm_snd]
  simp only [Bool.and_eq_true, truthy_trim_iff, emailRegexTest_iff]
  unfold AcceptedNonBlank EmailValid
  constructor
  · rintro ⟨⟨hn, _, he⟩, hm⟩
    refine ⟨hn, ⟨?_, he⟩, hm⟩
    intro hs
    exact not_nonBlank_nil (hs ▸ nonBlank_of_matches_emailRegex he)
  · rintro ⟨hn, ⟨_, he⟩, hm⟩
    exact ⟨⟨hn, nonBlank_of_matches_emailRegex he, he⟩, hm⟩

theorem validateForm_rejects_iff (f : FormData) :
    (validateForm f).2 = false ↔ ¬ AcceptedNonBlank f := by
  rw [← validateForm_accepts_iff]
  cases (validateForm f).2 <;> simp

theorem emailValid_iff (s : JSString) : EmailValid s ↔ Matches emailRegex s :=
  ⟨fun h => h.2, fun h => ⟨fun hs => not_nonBlank_nil (hs ▸ nonBlank_of_matches_emailRegex h), h⟩⟩

theorem validateForm_name_of_valid (f : FormData) (h : NonBlank f.name) :
    (validateForm f).1.name = Option.none := by
  rw [validateForm_fst]
  simp [(truthy_trim_iff f.name).2 h]

theorem validateForm_name_of_invalid (f : FormData) (h : ¬ NonBlank f.name) :
    (validateForm f).1.name = some (js "Name is required") := by
  rw [validateForm_fst]
  simp [(truthy_trim_eq_false_iff f.name).2 h]

theorem validateForm_message_of_valid (f : FormData) (h : NonBlank f.message) :
    (validateForm f).1.message = Option.none := by
  rw [validateForm_fst]
  simp [(truthy_trim_iff f.message).2 h]

theorem validateForm_message_of_invalid (f : FormData) (h : ¬ NonBlank f.message) :
    (validateForm f).1.message = some (js "Message is required") := by
  rw [validateForm_fst]
  simp [(truthy_trim_eq_false_iff f.message).2 h]

theorem validateForm_email_of_valid (f : FormData) (h : EmailValid f.email) :
    (validateForm f).1.email = Option.none := by
  rw [validateForm_fst]
  simp [(truthy_trim_iff f.email).2 (nonBlank_of_matches_emailRegex h.2),
    (emailRegexTest_iff f.email).2 h.2]

theorem validateForm_email_of_blank (f : FormData) (h : ¬ NonBlank f.email) :
    (validateForm f).1.email = some (js "Email is required") := by
  rw [validateForm_fst]
  simp [(truthy_trim_eq_false_iff f.email).2 h]

theorem validateForm_email_of_malformed (f : FormData) (hb : NonBlank f.email)
    (h : ¬ Matches emailRegex f.email) :
    (validateForm f).1.email = some (js "Please enter a valid email address") := by
  rw [validateForm_fst]
  simp [(truthy_trim_iff f.email).2 hb, (emailRegexTest_eq_false_iff f.email).2 h]

theorem handleSubmit_of_accepted (s : ContactState) (h : (validateForm s.formData).2 = true) :
    handleSubmit s =
      (⟨⟨[], [], []⟩, (validateForm s.formData).1⟩,
        [Effect.preventDefault, Effect.consoleLog (js "Form submitted:") s.formData,
          Effect.alert successText]) := by
  unfold handleSubmit
  simp [h]

theorem handleSubmit_of_rejected (s : ContactState) (h : (validateForm s.formData).2 = false) :
    handleSubmit s = (⟨s.formData, (validateForm s.formData).1⟩, [Effect.preventDefault]) := by
  unfold handleSubmit
  simp [h]

theorem validateForm_fst_of_accepted (f : FormData) (h : AcceptedNonBlank f) :
    (validateForm f).1 = Errors.none := by
  have h1 := validateForm_name_of_valid f h.1
  have h2 := validateForm_email_of_valid f h.2.1
  have h3 := validateForm_message_of_valid f h.2.2
  cases hv : (validateForm f).1 with
  | mk n e m =>
    rw [hv] at h1 h2 h3
    simp only at h1 h2 h3
    rw [h1, h2, h3]
    rfl

theorem invalid_email_has_message (f : FormData) (h : ¬ EmailValid f.email) :
    ∃ m, (validateForm f).1.email = some m ∧ truthy m = true := by
  by_cases hb : NonBlank f.email
  · refine ⟨_, validateForm_email_of_malformed f hb ?_, by decide⟩
    exact fun hm => h ((emailValid_iff _).2 hm)
  · exact ⟨_, validateForm_email_of_blank f hb, by decide⟩

/-! ## Contact form: the claims -/

/-- C1, as stated, fails: the form with name a single space, email `a@b.com` and message `hi`
has a non-empty name, a non-empty email matching the pattern and a non-empty message, yet
`validateForm` rejects it. -/
theorem validateForm_nonEmpty_counterexample :
    ¬ ((validateForm ⟨js " ", js "a@b.com", js "hi"⟩).2 = true ↔
        AcceptedNonEmpty ⟨js " ", js "a@b.com", js "hi"⟩) := by
  intro h
  have hacc : AcceptedNonEmpty ⟨js " ", js "a@b.com", js "hi"⟩ :=
    ⟨by decide, ⟨by decide, (emailRegexTest_iff _).1 (by decide)⟩, by decide⟩
  exact absurd (h.2 hacc) (by decide)

/-- C1, amended: `validateForm` accepts a form if and only if the name contains a code unit
that is not white space, the email is non-empty and matches the pattern
`/^[^\s@]+@[^\s@]+\.[^\s@]+$/`, and the message contains a code unit that is not white
space, for every triple of strings. -/
theorem validateForm_accepts_iff_nonBlank (f : FormData) :
    (validateForm f).2 = true ↔
      NonBlank f.name ∧ (f.email ≠ [] ∧ Matches emailRegex f.email) ∧ NonBlank f.message :=
  validateForm_accepts_iff f

/-- C2: when `validateForm` rejects, each invalid field (blank name, email that is empty or
fails the pattern, blank message) receives one message, which the view shows, each valid field
receives none, and the form with three empty fields gets exactly the three errors `name`,
`email`, `message`. -/
theorem validateForm_errors_exactly_invalid (f : FormData)
    (hrej : (validateForm f).2 = false) :
    ((¬ NonBlank f.name → ∃ m, (validateForm f).1.name = some m ∧ truthy m = true) ∧
      (NonBlank f.name → (validateForm f).1.name = Option.none)) ∧
    ((¬ EmailValid f.email → ∃ m, (validateForm f).1.email = some m ∧ truthy m = true) ∧
      (EmailValid f.email → (validateForm f).1.email = Option.none)) ∧
    ((¬ NonBlank f.message → ∃ m, (validateForm f).1.message = some m ∧ truthy m = true) ∧
      (NonBlank f.message → (validateForm f).1.message = Option.none)) ∧
    (¬ NonBlank f.name ∨ ¬ EmailValid f.email ∨ ¬ NonBlank f.message) ∧
    (f = ⟨[], [], []⟩ →
      (validateForm f).1.keys = [js "name", js "email", js "message"]) := by
  refine ⟨⟨?_, validateForm_name_of_valid f⟩, ⟨?_, validateForm_email_of_valid f⟩,
    ⟨?_, validateForm_message_of_valid f⟩, ?_, ?_⟩
  · intro h
    exact ⟨_, validateForm_name_of_invalid f h, by decide⟩
  · exact invalid_email_has_message f
  · intro h
    exact ⟨_, validateForm_message_of_invalid f h, by decide⟩
  · have hna := (validateForm_rejects_iff f).1 hrej
    by_contra hall
    push_neg at hall
    exact hna ⟨hall.1, hall.2.1, hall.2.2⟩
  · rintro rfl
    decide

/-- C2, witness: the form with three empty fields is rejected and gets the three errors. -/
theorem validateForm_errors_exactly_invalid_witness :
    (validateForm ⟨[], [], []⟩).2 = false ∧
      (validateForm ⟨[], [], []⟩).1.keys = [js "name", js "email", js "message"] :=
  ⟨by decide, (validateForm_errors_exactly_invalid ⟨[], [], []⟩ (by decide)).2.2.2.2 rfl⟩

/-- C3: for every form whose three fields are valid, `handleSubmit` leaves no errors, resets
name, email and message to the empty string and calls `alert` with the success text exactly
once. -/
theorem handleSubmit_valid_resets (s : ContactState)
    (hname : NonBlank s.formData.name) (hemail : EmailValid s.formData.email)
    (hmessage : NonBlank s.formData.message) :
    (handleSubmit s).1.errors = Errors.none ∧
    (handleSubmit s).1.errors.keys = [] ∧
    (handleSubmit s).1.formData = ⟨[], [], []⟩ ∧
    alertCount (handleSubmit s).2 = 1 ∧
    Effect.alert successText ∈ (handleSubmit s).2 := by
  have hacc : AcceptedNonBlank s.formData := ⟨hname, hemail, hmessage⟩
  rw [handleSubmit_of_accepted s ((validateForm_accepts_iff _).2 hacc),
    validateForm_fst_of_accepted _ hacc]
  refine ⟨rfl, rfl, rfl, rfl, ?_⟩
  simp

/-- C3, witness: the form with name `A`, email `a@b.com` and message `hi`. -/
theorem handleSubmit_valid_resets_witness :
    (handleSubmit ⟨⟨js "A", js "a@b.com", js "hi"⟩, Errors.none⟩).1.errors = Errors.none ∧
    (handleSubmit ⟨⟨js "A", js "a@b.com", js "hi"⟩, Errors.none⟩).1.errors.keys = [] ∧
    (handleSubmit ⟨⟨js "A", js "a@b.com", js "hi"⟩, Errors.none⟩).1.formData = ⟨[], [], []⟩ ∧
    alertCount (handleSubmit ⟨⟨js "A", js "a@b.com", js "hi"⟩, Errors.none⟩).2 = 1 ∧
    Effect.alert successText ∈
      (handleSubmit ⟨⟨js "A", js "a@b.com", js "hi"⟩, Errors.none⟩).2 :=
  handleSubmit_valid_resets ⟨⟨js "A", js "a@b.com", js "hi"⟩, Errors.none⟩
    ⟨65, by decide, by decide⟩
    ⟨by decide, (emailRegexTest_iff _).1 (by decide)⟩
    ⟨104, by decide, by decide⟩

/-- C4: for every form in which at least one field is invalid, `handleSubmit` leaves name,
email and message unchanged, performs nothing but `preventDefault` (no log, no success
signal) and stores the errors of the validation. -/
theorem handleSubmit_invalid_no_submission (s : ContactState)
    (hinv : ¬ NonBlank s.formData.name ∨ ¬ EmailValid s.formData.email ∨
      ¬ NonBlank s.formData.message) :
    (handleSubmit s).1.formData = s.formData ∧
    alertCount (handleSubmit s).2 = 0 ∧
    (handleSubmit s).2 = [Effect.preventDefault] ∧
    (handleSubmit s).1.errors = (validateForm s.formData).1 ∧
    (handleSubmit s).1.errors ≠ Errors.none := by
  have hna : ¬ AcceptedNonBlank s.formData := by
    rintro ⟨h1, h2, h3⟩
    rcases hinv with h | h | h
    · exact h h1
    · exact h h2
    · exact h h3
  have hrej := (validateForm_rejects_iff _).2 hna
  rw [handleSubmit_of_rejected s hrej]
  refine ⟨rfl, rfl, rfl, rfl, ?_⟩
  intro hnone
  simp only at hnone
  rcases hinv with h | h | h
  · have he := validateForm_name_of_invalid _ h
    rw [hnone] at he
    cases he
  · obtain ⟨m, he, _⟩ := invalid_email_has_message _ h
    rw [hnone] at he
    cases he
  · have he := validateForm_message_of_invalid _ h
    rw [hnone] at he
    cases he

/-- C4, witness: submitting a form whose name is blank and whose email is malformed. -/
theorem handleSubmit_invalid_no_submission_witness :
    (handleSubmit ⟨⟨js " ", js "not-an-email", js "hi"⟩, Errors.none⟩).1.formData =
        ⟨js " ", js "not-an-email", js "hi"⟩ ∧
    alertCount (handleSubmit ⟨⟨js " ", js "not-an-email", js "hi"⟩, Errors.none⟩).2 = 0 :=
  let h := handleSubmit_invalid_no_submission
    ⟨⟨js " ", js "not-an-email", js "hi"⟩, Errors.none⟩
    (Or.inl (fun hb => absurd ((truthy_trim_iff _).2 hb) (by decide)))
  ⟨h.1, h.2.1⟩

/-- C5, as stated, fails: with name `A`, message `hi` and an email made of a single space,
the email is non-empty and does not match the pattern, yet the one error on the email field
is `Email is required`, not `Please enter a valid email address`. -/
theorem validateForm_blank_email_counterexample :
    NonBlank (js "A") ∧ NonBlank (js "hi") ∧ js " " ≠ [] ∧ ¬ Matches emailRegex (js " ") ∧
    (validateForm ⟨js "A", js " ", js "hi"⟩).1.email = some (js "Email is required") ∧
    (validateForm ⟨js "A", js " ", js "hi"⟩).1.email ≠
      some (js "Please enter a valid email address") :=
  ⟨⟨65, by decide, by decide⟩, ⟨104, by decide, by decide⟩, by decide,
    fun h => absurd ((emailRegexTest_iff _).2 h) (by decide), by decide, by decide⟩

/-- C5, amended: for every form with a valid name, a valid message and an email that does not
match the pattern, validation yields exactly one error, on the email field; the message is
`Please enter a valid email address` when the email contains a code unit that is not white
space, and `Email is required` when it is empty or made of white space only. -/
theorem validateForm_malformed_email (f : FormData)
    (hname : NonBlank f.name) (hmessage : NonBlank f.message)
    (hpat : ¬ Matches emailRegex f.email) :
    (validateForm f).2 = false ∧
    (validateForm f).1.name = Option.none ∧
    (validateForm f).1.message = Option.none ∧
    (validateForm f).1.keys = [js "email"] ∧
    (NonBlank f.email →
      (validateForm f).1.email = some (js "Please enter a valid email address")) ∧
    (¬ NonBlank f.email → (validateForm f).1.email = some (js "Email is required")) := by
  have h1 := validateForm_name_of_valid f hname
  have h3 := validateForm_message_of_valid f hmessage
  obtain ⟨m, h2, _⟩ := invalid_email_has_message f (fun hv => hpat hv.2)
  refine ⟨(validateForm_rejects_iff f).2 (fun hacc => hpat hacc.2.1.2), h1, h3, ?_,
    fun hb => validateForm_email_of_malformed f hb hpat, validateForm_email_of_blank f⟩
  unfold Errors.keys
  rw [h1, h2, h3]
  rfl

/-- C5, witness: the form with name `A`, email `not-an-email` and message `hi`. -/
theorem validateForm_malformed_email_witness :
    (validateForm ⟨js "A", js "not-an-email", js "hi"⟩).1.keys = [js "email"] ∧
    (validateForm ⟨js "A", js "not-an-email", js "hi"⟩).1.email =
      some (js "Please enter a valid email address") :=
  let h := validateForm_malformed_email ⟨js "A", js "not-an-email", js "hi"⟩
    ⟨65, by decide, by decide⟩ ⟨104, by decide, by decide⟩
    (fun hm => absurd ((emailRegexTest_iff _).2 hm) (by decide))
  ⟨h.2.2.2.1, h.2.2.2.2.1 ⟨110, by decide, by decide⟩⟩

/-! ## Theme store: basic facts -/

theorem light_ne_dark : js "light" ≠ js "dark" := by decide

theorem toggleTheme_theme (st : ThemeStore) :
    (toggleTheme st).1.theme = if st.theme = js "light" then js "dark" else js "light" := by
  unfold toggleTheme
  cases st.localStorage <;> rfl

theorem toggleTheme_persisted (st : ThemeStore) (es : List (JSString × JSString))
    (hls : st.localStorage = LocalStorage.available es) :
    persisted (toggleTheme st).1 = Except.ok (some (toggleTheme st).1.theme) ∧
    ∃ es2, (toggleTheme st).1.localStorage = LocalStorage.available es2 := by
  unfold toggleTheme persisted
  rw [hls]
  simp [LocalStorage.setItem, LocalStorage.getItem, List.lookup]

theorem toggleTheme_twice_theme (st : ThemeStore)
    (h : st.theme = js "light" ∨ st.theme = js "dark") :
    (toggleTheme (toggleTheme st).1).1.theme = st.theme := by
  rw [toggleTheme_theme, toggleTheme_theme]
  rcases h with h | h
  · rw [h]
    simp [light_ne_dark, light_ne_dark.symm]
  · rw [h]
    simp [light_ne_dark, light_ne_dark.symm]

theorem currentTheme_light : currentTheme (js "light") = lightTheme := by decide

theorem currentTheme_dark : currentTheme (js "dark") = darkTheme := by decide

theorem startup_of_missing (ls : LocalStorage)
    (hget : ls.getItem (js "theme") = Except.ok Option.none) :
    startup ls = (ThemeStore.initial ls, Option.none) := by
  unfold startup mountEffect
  simp only [ThemeStore.initial] at hget ⊢
  simp only [hget]

theorem startup_of_stored (ls : LocalStorage) (v : JSString)
    (hget : ls.getItem (js "theme") = Except.ok (some v)) :
    startup ls =
      if truthy v = true then (⟨v, ls⟩, Option.none) else (ThemeStore.initial ls, Option.none) := by
  unfold startup mountEffect
  simp only [ThemeStore.initial] at hget ⊢
  simp only [hget]

/-! ## Theme store: the claims -/

/-- C6: when the storage entry `theme` holds `light` (respectively `dark`), the preference
after the mount-time load is the stored value and the active palette is `lightTheme`
(respectively `darkTheme`); when the entry is missing the preference is `light` and the active
palette is `lightTheme`; the load raises nothing. -/
theorem startup_restores_stored_preference (ls : LocalStorage) (stored : Option JSString)
    (hget : ls.getItem (js "theme") = Except.ok stored) :
    (stored = some (js "light") →
      (startup ls).1.theme = js "light" ∧ currentTheme (startup ls).1.theme = lightTheme) ∧
    (stored = some (js "dark") →
      (startup ls).1.theme = js "dark" ∧ currentTheme (startup ls).1.theme = darkTheme) ∧
    (stored = Option.none →
      (startup ls).1.theme = js "light" ∧ currentTheme (startup ls).1.theme = lightTheme) ∧
    (startup ls).2 = Option.none := by
  refine ⟨?_, ?_, ?_, ?_⟩
  · rintro rfl
    rw [startup_of_stored ls _ hget, if_pos (by decide)]
    exact ⟨rfl, currentTheme_light⟩
  · rintro rfl
    rw [startup_of_stored ls _ hget, if_pos (by decide)]
    exact ⟨rfl, currentTheme_dark⟩
  · rintro rfl
    rw [startup_of_missing ls hget]
    exact ⟨rfl, currentTheme_light⟩
  · cases stored with
    | none => rw [startup_of_missing ls hget]
    | some v =>
      rw [startup_of_stored ls v hget]
      cases hv : truthy v <;> simp

/-- C6, witness: a storage holding `light`, one holding `dark` and an empty one. -/
theorem startup_restores_stored_preference_witness :
    ((startup (LocalStorage.available [(js "theme", js "light")])).1.theme = js "light" ∧
      currentTheme (startup (LocalStorage.available [(js "theme", js "light")])).1.theme =
        lightTheme) ∧
    ((startup (LocalStorage.available [(js "theme", js "dark")])).1.theme = js "dark" ∧
      currentTheme (startup (LocalStorage.available [(js "theme", js "dark")])).1.theme =
        darkTheme) ∧
    ((startup (LocalStorage.available [])).1.theme = js "light" ∧
      currentTheme (startup (LocalStorage.available [])).1.theme = lightTheme) :=
  ⟨(startup_restores_stored_preference (LocalStorage.available [(js "theme", js "light")])
      (some (js "light")) rfl).1 rfl,
    (startup_restores_stored_preference (LocalStorage.available [(js "theme", js "dark")])
      (some (js "dark")) rfl).2.1 rfl,
    (startup_restores_stored_preference (LocalStorage.available []) Option.none rfl).2.2.1 rfl⟩

/-- C7, the code at the failing input: with `blue` stored under `theme`, the mount-time load
applies the stored value, and the active palette is `darkTheme`, not the light default. -/
theorem startup_stored_blue_gives_dark :
    (startup (LocalStorage.available [(js "theme", js "blue")])).1.theme = js "blue" ∧
    currentTheme (startup (LocalStorage.available [(js "theme", js "blue")])).1.theme =
      darkTheme ∧
    currentTheme (startup (LocalStorage.available [(js "theme", js "blue")])).1.theme ≠
      lightTheme := by
  decide

/-- C8, the code at the failing input: over a storage holding `blue` under `theme`, the state
right after the startup load is reachable and its preference is neither `light` nor
`dark`. -/
theorem reachable_preference_blue :
    Reachable (LocalStorage.available [(js "theme", js "blue")])
      (startup (LocalStorage.available [(js "theme", js "blue")])).1 ∧
    (startup (LocalStorage.available [(js "theme", js "blue")])).1.theme ≠ js "light" ∧
    (startup (LocalStorage.available [(js "theme", js "blue")])).1.theme ≠ js "dark" :=
  ⟨Reachable.start (by decide), by decide, by decide⟩

/-- C9: for every preference in `light`, `dark`, two successive calls of `toggleTheme` return
the preference to its original value, and a single call changes it. -/
theorem toggleTheme_involution (st : ThemeStore)
    (h : st.theme = js "light" ∨ st.theme = js "dark") :
    (toggleTimes 2 st).theme = st.theme ∧ (toggleTheme st).1.theme ≠ st.theme := by
  refine ⟨toggleTheme_twice_theme st h, ?_⟩
  rw [toggleTheme_theme]
  rcases h with h | h
  · rw [h]
    simp [light_ne_dark, light_ne_dark.symm]
  · rw [h]
    simp [light_ne_dark, light_ne_dark.symm]

/-- C9, witness: the store with preference `dark` over an empty storage. -/
theorem toggleTheme_involution_witness :
    (toggleTimes 2 ⟨js "dark", LocalStorage.available []⟩).theme = js "dark" ∧
    (toggleTheme ⟨js "dark", LocalStorage.available []⟩).1.theme ≠ js "dark" :=
  toggleTheme_involution ⟨js "dark", LocalStorage.available []⟩ (Or.inr rfl)

/-- C10, as stated, fails: after a startup over an empty storage nothing is persisted under
`theme`, and after two calls of `toggleTheme` the persisted value is `light`. -/
theorem toggleTheme_twice_persisted_counterexample :
    persisted (startup (LocalStorage.available [])).1 = Except.ok Option.none ∧
    persisted (toggleTimes 2 (startup (LocalStorage.available [])).1) =
      Except.ok (some (js "light")) ∧
    persisted (toggleTimes 2 (startup (LocalStorage.available [])).1) ≠
      persisted (startup (LocalStorage.available [])).1 := by
  decide

/-- C10, amended: for every store state whose preference is `light` or `dark` and whose
storage is usable, after two calls of `toggleTheme` the value persisted under `theme` is the
original preference; hence it is what it was before the two calls exactly when the storage
already held the current preference. -/
theorem toggleTheme_twice_persisted (st : ThemeStore) (es : List (JSString × JSString))
    (hls : st.localStorage = LocalStorage.available es)
    (h : st.theme = js "light" ∨ st.theme = js "dark") :
    persisted (toggleTimes 2 st) = Except.ok (some st.theme) ∧
    (persisted (toggleTimes 2 st) = persisted st ↔
      persisted st = Except.ok (some st.theme)) := by
  have h2 : persisted (toggleTimes 2 st) = Except.ok (some st.theme) := by
    obtain ⟨_, es1, hes1⟩ := toggleTheme_persisted st es hls
    have hp := (toggleTheme_persisted (toggleTheme st).1 es1 hes1).1
    rw [toggleTheme_twice_theme st h] at hp
    exact hp
  refine ⟨h2, ?_⟩
  rw [h2]
  exact ⟨fun he => he.symm, fun he => he.symm⟩

/-- C10, witness: the store with preference `dark` over a storage that holds `dark`. -/
theorem toggleTheme_twice_persisted_witness :
    persisted (toggleTimes 2 ⟨js "dark", LocalStorage.available [(js "theme", js "dark")]⟩) =
      persisted ⟨js "dark", LocalStorage.available [(js "theme", js "dark")]⟩ :=
  (toggleTheme_twice_persisted ⟨js "dark", LocalStorage.available [(js "theme", js "dark")]⟩
    [(js "theme", js "dark")] rfl (Or.inr rfl)).2.2 rfl

/-! ## Theme store: persistence -/

theorem lookup_filter_ne (key k : JSString) (hk : k ≠ key) :
    ∀ es : List (JSString × JSString),
      List.lookup k (es.filter fun e => e.1 != key) = List.lookup k es
  | [] => rfl
  | (a, b) :: es => by
    have ih := lookup_filter_ne key k hk es
    have hkk : (k == key) = false := beq_false_of_ne hk
    by_cases ha : a = key
    · simp [List.filter_cons, ha, List.lookup, ih, hkk]
    · by_cases hka : k = a
      · simp [List.filter_cons, ha, List.lookup, hka]
      · have hkb : (k == a) = false := beq_false_of_ne hka
        simp [List.filter_cons, ha, List.lookup, ih, hkb]

theorem toggleTheme_other_keys (st : ThemeStore) (es : List (JSString × JSString))
    (hls : st.localStorage = LocalStorage.available es) (key : JSString)
    (hkey : key ≠ js "theme") :
    (toggleTheme st).1.localStorage.getItem key = st.localStorage.getItem key := by
  unfold toggleTheme
  rw [hls]
  simp only [LocalStorage.setItem, LocalStorage.getItem]
  rw [List.lookup, beq_false_of_ne hkey, lookup_filter_ne (js "theme") key hkey es]

theorem toggleTheme_no_exception (st : ThemeStore) (es : List (JSString × JSString))
    (hls : st.localStorage = LocalStorage.available es) :
    (toggleTheme st).2 = Option.none := by
  unfold toggleTheme
  rw [hls]
  rfl

theorem toggleTheme_theme_truthy (st : ThemeStore) :
    truthy (toggleTheme st).1.theme = true := by
  rw [toggleTheme_theme]
  by_cases h : st.theme = js "light"
  · rw [if_pos h]
    decide
  · rw [if_neg h]
    decide

theorem toggleTheme_unavailable (st : ThemeStore)
    (hls : st.localStorage = LocalStorage.unavailable) :
    toggleTheme st =
      (⟨if st.theme = js "light" then js "dark" else js "light", LocalStorage.unavailable⟩,
        some (JSException.domException (js "SecurityError"))) := by
  unfold toggleTheme
  rw [hls]
  rfl

theorem mountEffect_unavailable (st : ThemeStore)
    (hls : st.localStorage = LocalStorage.unavailable) :
    mountEffect st = (st, some (JSException.domException (js "SecurityError"))) := by
  unfold mountEffect
  rw [hls]
  rfl

/-- C11: on a usable storage, every call of `toggleTheme` completes without exception, the
value stored under `theme` right after it is the new preference, and the value under every
other key is what it was. -/
theorem toggleTheme_writes_theme_key (st : ThemeStore) (es : List (JSString × JSString))
    (hls : st.localStorage = LocalStorage.available es) :
    (toggleTheme st).2 = Option.none ∧
    (toggleTheme st).1.localStorage.getItem (js "theme") =
      Except.ok (some (toggleTheme st).1.theme) ∧
    ∀ key : JSString, key ≠ js "theme" →
      (toggleTheme st).1.localStorage.getItem key = st.localStorage.getItem key :=
  ⟨toggleTheme_no_exception st es hls, (toggleTheme_persisted st es hls).1,
    fun key hkey => toggleTheme_other_keys st es hls key hkey⟩

/-- C11, witness: toggling from `light` over a storage that holds `lang` and an old `theme`. -/
theorem toggleTheme_writes_theme_key_witness :
    (toggleTheme ⟨js "light", LocalStorage.available
        [(js "lang", js "es"), (js "theme", js "light")]⟩).1.localStorage.getItem
        (js "theme") = Except.ok (some (js "dark")) ∧
    (toggleTheme ⟨js "light", LocalStorage.available
        [(js "lang", js "es"), (js "theme", js "light")]⟩).1.localStorage.getItem
        (js "lang") = Except.ok (some (js "es")) :=
  let h := toggleTheme_writes_theme_key
    ⟨js "light", LocalStorage.available [(js "lang", js "es"), (js "theme", js "light")]⟩
    [(js "lang", js "es"), (js "theme", js "light")] rfl
  ⟨h.2.1, h.2.2 (js "lang") (by decide)⟩

/-- C12: on a usable storage, after `toggleTheme` has produced the preference `p`, a fresh
startup over the storage it left (initial state `light`, then the mount-time load) completes
without exception and restores exactly `p`, with the palette of `p`. -/
theorem startup_after_toggle_restores (st : ThemeStore) (es : List (JSString × JSString))
    (hls : st.localStorage = LocalStorage.available es) :
    (startup (toggleTheme st).1.localStorage).1.theme = (toggleTheme st).1.theme ∧
    (startup (toggleTheme st).1.localStorage).2 = Option.none ∧
    currentTheme (startup (toggleTheme st).1.localStorage).1.theme =
      currentTheme (toggleTheme st).1.theme ∧
    ((toggleTheme st).1.theme = js "light" ∨ (toggleTheme st).1.theme = js "dark") := by
  have hp := (toggleTheme_persisted st es hls).1
  unfold persisted at hp
  rw [startup_of_stored _ _ hp, if_pos (toggleTheme_theme_truthy st)]
  refine ⟨rfl, rfl, rfl, ?_⟩
  rw [toggleTheme_theme]
  by_cases h : st.theme = js "light"
  · exact Or.inr (if_pos h)
  · exact Or.inl (if_neg h)

/-- C12, witness: `light` toggled to `dark` over an empty storage, then a fresh startup. -/
theorem startup_after_toggle_restores_witness :
    (startup (toggleTheme ⟨js "light", LocalStorage.available []⟩).1.localStorage).1.theme =
      js "dark" :=
  (startup_after_toggle_restores ⟨js "light", LocalStorage.available []⟩ [] rfl).1

theorem not_reachable_unavailable (st : ThemeStore) :
    ¬ Reachable LocalStorage.unavailable st := by
  intro h
  induction h with
  | start hs => exact absurd hs (by decide)
  | toggle _ ih => exact ih

/-- C13, as stated, fails: on an unavailable storage the startup load lets the exception of
`getItem` escape, which unmounts the application, and `toggleTheme` on a store that was
mounted over an empty storage and then lost its storage lets the exception of `setItem`
escape. -/
theorem storage_unavailable_raises_counterexample :
    (startup LocalStorage.unavailable).2 =
      some (JSException.domException (js "SecurityError")) ∧
    mountApp LocalStorage.unavailable =
      AppTree.unmounted (JSException.domException (js "SecurityError")) ∧
    mountApp (LocalStorage.available []) =
      AppTree.mounted ⟨js "light", LocalStorage.available []⟩ ∧
    (toggleTheme (loseStorage ⟨js "light", LocalStorage.available []⟩)).2 =
      some (JSException.domException (js "SecurityError")) := by
  decide

/-- C13, amended: on an unavailable storage the exception of the storage call escapes the
mount-time load and `toggleTheme`. At startup it unmounts the component tree, so that no
store state is reachable over a storage that is unavailable from the start. On a mounted
store whose storage has become unavailable, `toggleTheme` raises the exception of the write
and still flips the preference in memory, leaving the storage as it is. -/
theorem storage_unavailable_behaviour (st : ThemeStore)
    (hls : st.localStorage = LocalStorage.unavailable) :
    (mountEffect st).2 = some (JSException.domException (js "SecurityError")) ∧
    mountApp LocalStorage.unavailable =
      AppTree.unmounted (JSException.domException (js "SecurityError")) ∧
    (∀ t, ¬ Reachable LocalStorage.unavailable t) ∧
    (toggleTheme st).2 = some (JSException.domException (js "SecurityError")) ∧
    (toggleTheme st).1.theme = (if st.theme = js "light" then js "dark" else js "light") ∧
    (toggleTheme st).1.theme ≠ st.theme ∧
    (toggleTheme st).1.localStorage = LocalStorage.unavailable := by
  rw [mountEffect_unavailable st hls, toggleTheme_unavailable st hls]
  refine ⟨rfl, by decide, not_reachable_unavailable, rfl, rfl, ?_, rfl⟩
  by_cases h : st.theme = js "light"
  · simp only [if_pos h]
    rw [h]
    exact light_ne_dark.symm
  · simp only [if_neg h]
    exact fun he => h he.symm

/-- C13, witness: the application mounts over a storage holding `dark`, the storage is then
lost, and the next `toggleTheme` raises while the preference becomes `light`. -/
theorem storage_unavailable_behaviour_witness :
    mountApp (LocalStorage.available [(js "theme", js "dark")]) =
      AppTree.mounted ⟨js "dark", LocalStorage.available [(js "theme", js "dark")]⟩ ∧
    (toggleTheme
      (loseStorage ⟨js "dark", LocalStorage.available [(js "theme", js "dark")]⟩)).1.theme =
        js "light" ∧
    (toggleTheme
      (loseStorage ⟨js "dark", LocalStorage.available [(js "theme", js "dark")]⟩)).2 =
        some (JSException.domException (js "SecurityError")) :=
  let h := storage_unavailable_behaviour
    (loseStorage ⟨js "dark", LocalStorage.available [(js "theme", js "dark")]⟩) rfl
  ⟨by decide, h.2.2.2.2.1, h.2.2.2.1⟩

/-! ## Theme consumer hook -/

/-- C14: `useTheme` throws, and then it throws the error `useTheme must be used within a
ThemeProvider`, if and only if the context value it reads is absent, which is the case
exactly when no `ThemeProvider` encloses the caller; otherwise it returns the provided
value unchanged. -/
theorem useTheme_throws_iff_absent (context : Option ThemeContextValue) :
    ((∃ e, useTheme context = Except.error e) ↔ context = Option.none) ∧
    (useTheme context =
        Except.error (JSException.error (js "useTheme must be used within a ThemeProvider")) ↔
      context = Option.none) ∧
    (∀ value, context = some value → useTheme context = Except.ok value) ∧
    (∀ providers : List ThemeContextValue, useContext providers = Option.none ↔ providers = []) ∧
    (∀ (st : ThemeStore) (outer : List ThemeContextValue),
      useTheme (useContext (ThemeProvider.value st :: outer)) =
        Except.ok (ThemeProvider.value st)) := by
  refine ⟨?_, ?_, ?_, ?_, ?_⟩
  · cases context with
    | none => exact ⟨fun _ => rfl, fun _ => ⟨_, rfl⟩⟩
    | some v =>
      constructor
      · rintro ⟨e, he⟩
        simp [useTheme] at he
      · intro h
        cases h
  · cases context with
    | none => exact ⟨fun _ => rfl, fun _ => rfl⟩
    | some v =>
      constructor
      · intro he
        simp [useTheme] at he
      · intro h
        cases h
  · rintro value rfl
    rfl
  · intro providers
    cases providers with
    | nil => exact ⟨fun _ => rfl, fun _ => rfl⟩
    | cons a t =>
      constructor
      · intro h
        simp [useContext] at h
      · intro h
        cases h
  · intro st outer
    rfl

/-! ## Navigation bar -/

theorem toLowerCase_eq_slash_iff (p : JSString) : toLowerCase p = js "/" ↔ p = js "/" := by
  have hj : js "/" = [0x2F] := by decide
  rw [hj]
  unfold toLowerCase
  constructor
  · intro h
    match p, h with
    | [], h => simp at h
    | _ :: _ :: _, h => simp at h
    | [c], h =>
      simp only [List.map_cons, List.map_nil, List.cons.injEq, and_true] at h
      by_cases hc : 0x41 ≤ c ∧ c ≤ 0x5A
      · rw [if_pos hc] at h
        omega
      · rw [if_neg hc] at h
        rw [h]
  · rintro rfl
    decide

theorem isActive_home_iff (label p : JSString) :
    isActive ⟨js "/", true, label⟩ p = true ↔ p = js "/" := by
  have hl : toLowerCase (js "/") = js "/" := by decide
  unfold isActive
  simp only [hl, Bool.not_true, Bool.false_and, Bool.or_false, beq_iff_eq]
  exact toLowerCase_eq_slash_iff p

theorem isPrefixOf_of_isActive (link : NavLinkProps) (p : JSString)
    (h : isActive link p = true) :
    (toLowerCase link.toPath).isPrefixOf (toLowerCase p) = true := by
  unfold isActive at h
  simp only [Bool.or_eq_true, Bool.and_eq_true, beq_iff_eq] at h
  rcases h with h | h
  · rw [h]
    simp
  · exact h.1.2

/-- C15: the mobile menu starts closed; the hamburger button maps closed to open and open to
closed; while open, selecting any of the five mobile-menu links navigates to its target and
leaves the menu closed; while closed no mobile-menu link is rendered; every reachable state is
one of closed and open. -/
theorem mobile_menu_state_machine :
    NavBarState.initial = ⟨false⟩ ∧
    navStep ⟨false⟩ NavEvent.hamburger = some (⟨true⟩, Option.none) ∧
    navStep ⟨true⟩ NavEvent.hamburger = some (⟨false⟩, Option.none) ∧
    mobileMenuLinks.length = 5 ∧
    renderedMobileLinks ⟨true⟩ = mobileMenuLinks ∧
    (∀ link ∈ mobileMenuLinks,
      navStep ⟨true⟩ (NavEvent.mobileLink link) = some (⟨false⟩, some link.toPath)) ∧
    renderedMobileLinks ⟨false⟩ = [] ∧
    (∀ link, navStep ⟨false⟩ (NavEvent.mobileLink link) = Option.none) ∧
    (∀ s, NavReachable s → s = ⟨false⟩ ∨ s = ⟨true⟩) := by
  refine ⟨rfl, rfl, rfl, rfl, rfl, by decide, rfl, ?_, ?_⟩
  · intro link
    simp [navStep, renderedMobileLinks]
  · intro s _
    cases s with
    | mk b => cases b <;> simp

theorem isPrefixOf_snoc (c : Nat) :
    ∀ t loc : List Nat,
      (t.isPrefixOf loc && loc.get? t.length == some c) = (t ++ [c]).isPrefixOf loc
  | [], [] => rfl
  | [], a :: l => by
    by_cases h : a = c
    · simp [List.isPrefixOf, h]
    · have h2 : ¬ c = a := fun e => h e.symm
      simp [List.isPrefixOf, h, h2]
  | _ :: _, [] => rfl
  | x :: t, a :: l => by
    have ih := isPrefixOf_snoc c t l
    simp only [List.isPrefixOf, List.cons_append, List.length_cons, List.get?_cons_succ,
      Bool.and_assoc]
    rw [ih]
    rfl

/-- A link without `end`, whose target is in lower case and has no trailing slash, is active
exactly at the pathnames that are its target or continue it with a `/`, up to ASCII case. -/
theorem isActive_iff_path_prefix (link : NavLinkProps) (p : JSString)
    (hend : link.endProp = false) (hlow : toLowerCase link.toPath = link.toPath)
    (hns : link.toPath.getLast? ≠ some 0x2F) :
    isActive link p = true ↔
      toLowerCase p = link.toPath ∨
        (link.toPath ++ js "/").isPrefixOf (toLowerCase p) = true := by
  have hj : js "/" = [0x2F] := by decide
  have hcond : ¬ (link.toPath ≠ js "/" ∧ link.toPath.getLast? = some 0x2F) :=
    fun h => hns h.2
  unfold isActive
  simp only [hlow, hend, if_neg hcond, Bool.not_false, Bool.true_and, Bool.or_eq_true,
    beq_iff_eq]
  rw [isPrefixOf_snoc 0x2F link.toPath (toLowerCase p), hj]

theorem navLinks_plain :
    ∀ link ∈ navLinks, link.endProp = false →
      toLowerCase link.toPath = link.toPath ∧ link.toPath.getLast? ≠ some 0x2F := by
  decide

/-- C18: whether a link is active depends on the link and the current pathname only. The root
link is active exactly at `/`. Each of the other four links is active exactly at the
pathnames its target is a path prefix of, that is the target itself or the target continued
with a `/` (up to ASCII case): Products is active at `/products/42` and not at `/productsx`.
At each of the five link targets exactly the link with that target is active, and at
`/services` the one active link is Services. -/
theorem active_link_at_targets :
    (∀ p, isActive ⟨js "/", true, js "Home"⟩ p = true ↔ p = js "/") ∧
    (∀ link ∈ navLinks, link.endProp = false → ∀ p,
      (isActive link p = true ↔
        toLowerCase p = link.toPath ∨
          (link.toPath ++ js "/").isPrefixOf (toLowerCase p) = true)) ∧
    (navLinks.filter fun link => !link.endProp).map (fun link => link.toPath) =
      [js "/products", js "/services", js "/about", js "/contact"] ∧
    (∀ link ∈ navLinks, ∀ p, isActive link p = true →
      (toLowerCase link.toPath).isPrefixOf (toLowerCase p) = true) ∧
    activeLinks (js "/products/42") = [⟨js "/products", false, js "Products"⟩] ∧
    activeLinks (js "/productsx") = [] ∧
    navLinks.map (fun link => link.toPath) =
      [js "/", js "/products", js "/services", js "/about", js "/contact"] ∧
    (∀ link ∈ navLinks, activeLinks link.toPath = [link]) ∧
    (activeLinks (js "/services")).map (fun link => link.label) = [js "Services"] :=
  ⟨isActive_home_iff (js "Home"),
    fun link hmem hend p =>
      isActive_iff_path_prefix link p hend (navLinks_plain link hmem hend).1
        (navLinks_plain link hmem hend).2,
    by decide, fun link _ p h => isPrefixOf_of_isActive link p h,
    by decide, by decide, by decide, by decide, by decide⟩

/-! ## Contact form: input changes -/

/-- C20: `handleChange` for a field and a value sets that field of `formData` to the value and
leaves the other two unchanged; if the field had a non-empty error it is replaced by the empty
string, otherwise the errors object is unchanged, so that afterwards no error is shown for
the field; the errors of every other field are unchanged. -/
theorem handleChange_frame (s : ContactState) (fieldName : Field) (value : JSString) :
    (handleChange s fieldName value).formData.get fieldName = value ∧
    (∀ other, other ≠ fieldName →
      (handleChange s fieldName value).formData.get other = s.formData.get other) ∧
    (shown (s.errors.get fieldName) = true →
      (handleChange s fieldName value).errors.get fieldName = some (js "")) ∧
    (shown (s.errors.get fieldName) = false →
      (handleChange s fieldName value).errors = s.errors) ∧
    shown ((handleChange s fieldName value).errors.get fieldName) = false ∧
    (∀ other, other ≠ fieldName →
      (handleChange s fieldName value).errors.get other = s.errors.get other) := by
  unfold handleChange
  refine ⟨?_, ?_, ?_, ?_, ?_, ?_⟩
  · cases fieldName <;> rfl
  · intro other hne
    cases fieldName <;> cases other <;> first | rfl | exact absurd rfl hne
  · intro h
    simp only [h, if_true]
    cases fieldName <;> rfl
  · intro h
    simp [h]
  · cases h : shown (s.errors.get fieldName)
    · simp [h]
    · simp only [if_true]
      cases fieldName <;> rfl
  · intro other hne
    cases h : shown (s.errors.get fieldName)
    · simp
    · simp only [if_true]
      cases fieldName <;> cases other <;> first | rfl | exact absurd rfl hne

/-! ## Application shell: route matching -/

/-- When two paths match one pathname, the longer one is the shorter one followed by
slashes, up to case. -/
theorem matchPath_both (p q s : JSString) (hp : matchPath p s = true)
    (hq : matchPath q s = true) (hle : p.length ≤ q.length) :
    (q.map canonicalize).take p.length = p.map canonicalize ∧
    ∀ c ∈ (q.map canonicalize).drop p.length, isSlash c = true := by
  unfold matchPath at hp hq
  simp only [Bool.and_eq_true, beq_iff_eq, List.all_eq_true] at hp hq
  obtain ⟨hp1, hp2⟩ := hp
  obtain ⟨hq1, _⟩ := hq
  constructor
  · rw [← hq1, ← List.map_take, List.take_take, Nat.min_eq_left hle, hp1]
  · intro c hc
    rw [← hq1, ← List.map_drop, List.drop_take] at hc
    obtain ⟨x, hx, rfl⟩ := List.mem_map.1 hc
    have hsl := hp2 x (List.mem_of_mem_take hx)
    unfold isSlash at hsl ⊢
    have hx47 : x = 0x2F := by simpa using hsl
    rw [hx47]
    decide

theorem matchingRoutes_length_le_one (s : JSString) : (matchingRoutes s).length ≤ 1 := by
  have h12 : ¬ (matchPath (js "/") s = true ∧ matchPath (js "/products") s = true) :=
    fun h => absurd (matchPath_both _ _ s h.1 h.2 (by decide)) (by decide)
  have h13 : ¬ (matchPath (js "/") s = true ∧ matchPath (js "/services") s = true) :=
    fun h => absurd (matchPath_both _ _ s h.1 h.2 (by decide)) (by decide)
  have h14 : ¬ (matchPath (js "/") s = true ∧ matchPath (js "/about") s = true) :=
    fun h => absurd (matchPath_both _ _ s h.1 h.2 (by decide)) (by decide)
  have h15 : ¬ (matchPath (js "/") s = true ∧ matchPath (js "/contact") s = true) :=
    fun h => absurd (matchPath_both _ _ s h.1 h.2 (by decide)) (by decide)
  have h23 : ¬ (matchPath (js "/products") s = true ∧ matchPath (js "/services") s = true) :=
    fun h => absurd (matchPath_both _ _ s h.1 h.2 (by decide)) (by decide)
  have h42 : ¬ (matchPath (js "/about") s = true ∧ matchPath (js "/products") s = true) :=
    fun h => absurd (matchPath_both _ _ s h.1 h.2 (by decide)) (by decide)
  have h52 : ¬ (matchPath (js "/contact") s = true ∧ matchPath (js "/products") s = true) :=
    fun h => absurd (matchPath_both _ _ s h.1 h.2 (by decide)) (by decide)
  have h43 : ¬ (matchPath (js "/about") s = true ∧ matchPath (js "/services") s = true) :=
    fun h => absurd (matchPath_both _ _ s h.1 h.2 (by decide)) (by decide)
  have h53 : ¬ (matchPath (js "/contact") s = true ∧ matchPath (js "/services") s = true) :=
    fun h => absurd (matchPath_both _ _ s h.1 h.2 (by decide)) (by decide)
  have h45 : ¬ (matchPath (js "/about") s = true ∧ matchPath (js "/contact") s = true) :=
    fun h => absurd (matchPath_both _ _ s h.1 h.2 (by decide)) (by decide)
  unfold matchingRoutes routes
  simp only [List.filter_cons, List.filter_nil]
  cases h1 : matchPath (js "/") s <;> cases h2 : matchPath (js "/products") s <;>
    cases h3 : matchPath (js "/services") s <;> cases h4 : matchPath (js "/about") s <;>
    cases h5 : matchPath (js "/contact") s <;> simp_all

/-- C16: at each of the five defined paths the route table matches exactly the entry of the
corresponding page (`/` Landing, `/products` Products, `/services` Services, `/about`
AboutUs, `/contact` Contact) and `Routes` renders that page, loaded from its own module. -/
theorem routes_select_defined_paths :
    routes.map (fun r => r.path) =
      [js "/", js "/products", js "/services", js "/about", js "/contact"] ∧
    (∀ r ∈ routes, matchingRoutes r.path = [r] ∧ Routes r.path = some r.element) ∧
    Routes (js "/") = some Page.Landing ∧
    Routes (js "/products") = some Page.Products ∧
    Routes (js "/services") = some Page.Services ∧
    Routes (js "/about") = some Page.AboutUs ∧
    Routes (js "/contact") = some Page.Contact ∧
    [Page.Landing, Page.Products, Page.Services, Page.AboutUs, Page.Contact].map Page.module =
      [js "./pages/Landing", js "./pages/Products", js "./pages/Services",
        js "./pages/AboutUs", js "./pages/Contact"] := by
  decide

/-- C17: for every pathname at most one of the five route entries matches it. -/
theorem routes_exclusive (pathname : JSString) :
    (matchingRoutes pathname).length ≤ 1 ∧
    ∀ r ∈ routes, ∀ q ∈ routes,
      matchPath r.path pathname = true → matchPath q.path pathname = true → r = q := by
  have hlen := matchingRoutes_length_le_one pathname
  refine ⟨hlen, ?_⟩
  intro r hr q hq hmr hmq
  have hr2 : r ∈ matchingRoutes pathname := List.mem_filter.2 ⟨hr, hmr⟩
  have hq2 : q ∈ matchingRoutes pathname := List.mem_filter.2 ⟨hq, hmq⟩
  match hm : matchingRoutes pathname, hlen, hr2, hq2 with
  | [], _, h, _ => cases h
  | [a], _, h1, h2 =>
    rw [List.mem_singleton] at h1 h2
    rw [h1, h2]
  | _ :: _ :: _, hl, _, _ => simp at hl

/-! ## The email pattern in words -/

theorem matches_cls_iff (p : Nat → Bool) (s : JSString) :
    Matches (RE.cls p) s ↔ ∃ c, s = [c] ∧ p c = true := by
  constructor
  · intro h
    cases h with
    | cls hp => exact ⟨_, rfl, hp⟩
  · rintro ⟨c, rfl, hp⟩
    exact Matches.cls hp

theorem matches_seq_iff (r q : RE) (s : JSString) :
    Matches (RE.seq r q) s ↔ ∃ s1 s2, s = s1 ++ s2 ∧ Matches r s1 ∧ Matches q s2 := by
  constructor
  · intro h
    cases h with
    | seq h1 h2 => exact ⟨_, _, rfl, h1, h2⟩
  · rintro ⟨s1, s2, rfl, h1, h2⟩
    exact Matches.seq h1 h2

theorem all_of_matches_star_cls {r : RE} {s : JSString} (h : Matches r s) :
    ∀ p : Nat → Bool, r = RE.star (RE.cls p) → ∀ c ∈ s, p c = true := by
  induction h with
  | eps => intro p hr; cases hr
  | cls _ => intro p hr; cases hr
  | seq _ _ _ _ => intro p hr; cases hr
  | altL _ _ => intro p hr; cases hr
  | altR _ _ => intro p hr; cases hr
  | starNil => intro p _ c hc; cases hc
  | starCons h1 _ _ ih2 =>
    intro p hr c hc
    cases hr
    rcases List.mem_append.1 hc with hc | hc
    · obtain ⟨d, rfl, hd⟩ := (matches_cls_iff p _).1 h1
      rw [List.mem_singleton] at hc
      rw [hc]
      exact hd
    · exact ih2 p rfl c hc

theorem matches_star_cls_iff (p : Nat → Bool) :
    ∀ s : JSString, Matches (RE.star (RE.cls p)) s ↔ ∀ c ∈ s, p c = true
  | [] => ⟨fun _ c hc => (List.not_mem_nil c hc).elim, fun _ => Matches.starNil⟩
  | a :: s => by
    constructor
    · intro h
      exact all_of_matches_star_cls h p rfl
    · intro h
      have hs : Matches (RE.star (RE.cls p)) s :=
        (matches_star_cls_iff p s).2 fun c hc => h c (List.mem_cons_of_mem a hc)
      exact Matches.starCons (Matches.cls (h a (List.mem_cons_self a s))) hs

theorem matches_plus_cls_iff (p : Nat → Bool) (s : JSString) :
    Matches (RE.plus (RE.cls p)) s ↔ s ≠ [] ∧ ∀ c ∈ s, p c = true := by
  unfold RE.plus
  rw [matches_seq_iff]
  constructor
  · rintro ⟨s1, s2, rfl, h1, h2⟩
    obtain ⟨d, rfl, hd⟩ := (matches_cls_iff p _).1 h1
    refine ⟨by simp, ?_⟩
    intro c hc
    rcases List.mem_append.1 hc with hc | hc
    · rw [List.mem_singleton] at hc
      rw [hc]
      exact hd
    · exact (matches_star_cls_iff p s2).1 h2 c hc
  · rintro ⟨hne, hall⟩
    cases s with
    | nil => exact absurd rfl hne
    | cons a t =>
      refine ⟨[a], t, rfl, Matches.cls (hall a (List.mem_cons_self a t)), ?_⟩
      exact (matches_star_cls_iff p t).2 fun c hc => hall c (List.mem_cons_of_mem a hc)

theorem notSpaceAt_iff (c : Nat) :
    notSpaceAt c = true ↔ isWhiteSpace c = false ∧ c ≠ 0x40 := by
  unfold notSpaceAt
  cases isWhiteSpace c <;> simp

/-- The pattern spelt out: local part, `@`, first domain part, `.`, last domain part, the three
parts non-empty and made of code units of the class `[^\s@]`. -/
theorem matches_emailRegex_iff (s : JSString) :
    Matches emailRegex s ↔
      ∃ a b c : JSString, s = a ++ 0x40 :: (b ++ 0x2E :: c) ∧
        (a ≠ [] ∧ ∀ x ∈ a, notSpaceAt x = true) ∧
        (b ≠ [] ∧ ∀ x ∈ b, notSpaceAt x = true) ∧
        (c ≠ [] ∧ ∀ x ∈ c, notSpaceAt x = true) := by
  unfold emailRegex
  simp only [matches_seq_iff, matches_plus_cls_iff, matches_cls_iff]
  constructor
  · rintro ⟨a, r1, rfl, ha, x, r2, rfl, ⟨cx, rfl, hx⟩, b, r3, rfl, hb, y, c, rfl,
      ⟨cy, rfl, hy⟩, hc⟩
    have hx40 : cx = 0x40 := by simpa [isAt] using hx
    have hy2E : cy = 0x2E := by simpa [isDot] using hy
    subst hx40 hy2E
    exact ⟨a, b, c, rfl, ha, hb, hc⟩
  · rintro ⟨a, b, c, rfl, ha, hb, hc⟩
    exact ⟨a, _, rfl, ha, [0x40], _, rfl, ⟨0x40, rfl, by decide⟩, b, _, rfl, hb, [0x2E], c,
      rfl, ⟨0x2E, rfl, by decide⟩, hc⟩

theorem emailShape_of_parts (a b c : JSString)
    (ha : a ≠ [] ∧ ∀ x ∈ a, notSpaceAt x = true)
    (hb : b ≠ [] ∧ ∀ x ∈ b, notSpaceAt x = true)
    (hc : c ≠ [] ∧ ∀ x ∈ c, notSpaceAt x = true) :
    EmailShape (a ++ 0x40 :: (b ++ 0x2E :: c)) := by
  have ca : a.count 0x40 = 0 :=
    List.count_eq_zero.2 fun hm => ((notSpaceAt_iff _).1 (ha.2 _ hm)).2 rfl
  have cb : b.count 0x40 = 0 :=
    List.count_eq_zero.2 fun hm => ((notSpaceAt_iff _).1 (hb.2 _ hm)).2 rfl
  have cc : c.count 0x40 = 0 :=
    List.count_eq_zero.2 fun hm => ((notSpaceAt_iff _).1 (hc.2 _ hm)).2 rfl
  refine ⟨?_, ?_, a, b ++ 0x2E :: c, rfl, ha.1, b.length, List.length_pos.2 hb.1, ?_, ?_⟩
  · intro x hx
    simp only [List.mem_append, List.mem_cons] at hx
    rcases hx with hx | hx | hx | hx | hx
    · exact ((notSpaceAt_iff x).1 (ha.2 x hx)).1
    · rw [hx]
      decide
    · exact ((notSpaceAt_iff x).1 (hb.2 x hx)).1
    · rw [hx]
      decide
    · exact ((notSpaceAt_iff x).1 (hc.2 x hx)).1
  · simp [List.count_append, List.count_cons, ca, cb, cc]
  · have hcl := List.length_pos.2 hc.1
    simp only [List.length_append, List.length_cons]
    omega
  · rw [List.get?_eq_getElem?, List.getElem?_append_right (Nat.le_refl _)]
    simp

theorem parts_of_emailShape (s : JSString) (h : EmailShape s) :
    ∃ a b c : JSString, s = a ++ 0x40 :: (b ++ 0x2E :: c) ∧
      (a ≠ [] ∧ ∀ x ∈ a, notSpaceAt x = true) ∧
      (b ≠ [] ∧ ∀ x ∈ b, notSpaceAt x = true) ∧
      (c ≠ [] ∧ ∀ x ∈ c, notSpaceAt x = true) := by
  obtain ⟨hws, hcount, l, d, rfl, hl, i, hi0, hi1, hget⟩ := h
  rw [List.count_append, List.count_cons_self] at hcount
  have hl0 : (0x40 : Nat) ∉ l := List.count_eq_zero.1 (by omega)
  have hd0 : (0x40 : Nat) ∉ d := List.count_eq_zero.1 (by omega)
  rw [List.get?_eq_getElem?, List.getElem?_eq_some_iff] at hget
  obtain ⟨hlt, hval⟩ := hget
  have hd : d = d.take i ++ 0x2E :: d.drop (i + 1) := by
    conv_lhs => rw [← List.take_append_drop i d, List.drop_eq_getElem_cons hlt, hval]
  have hmem : ∀ x ∈ d, notSpaceAt x = true := fun x hx =>
    (notSpaceAt_iff x).2
      ⟨hws x (List.mem_append_right l (List.mem_cons_of_mem _ hx)), fun he => hd0 (he ▸ hx)⟩
  refine ⟨l, d.take i, d.drop (i + 1), by rw [← hd], ⟨hl, ?_⟩, ⟨?_, ?_⟩, ⟨?_, ?_⟩⟩
  · intro x hx
    exact (notSpaceAt_iff x).2 ⟨hws x (List.mem_append_left _ hx), fun he => hl0 (he ▸ hx)⟩
  · intro hb
    have hlen := congrArg List.length hb
    simp only [List.length_take, List.length_nil] at hlen
    omega
  · intro x hx
    exact hmem x (List.mem_of_mem_take hx)
  · intro hc
    have hlen := congrArg List.length hc
    simp only [List.length_drop, List.length_nil] at hlen
    omega
  · intro x hx
    exact hmem x (List.mem_of_mem_drop hx)

/-- C19: the pattern `/^[^\s@]+@[^\s@]+\.[^\s@]+$/` accepts a string exactly when the string
contains no white space, contains exactly one `@`, has a non-empty local part before the `@`,
and its domain part after the `@` contains a `.` that is neither the first nor the last code
unit of the domain. -/
theorem emailRegexTest_iff_emailShape (s : JSString) :
    emailRegexTest s = true ↔
      (∀ c ∈ s, isWhiteSpace c = false) ∧ s.count 0x40 = 1 ∧
        ∃ localPart domain : JSString, s = localPart ++ 0x40 :: domain ∧ localPart ≠ [] ∧
          ∃ i, 0 < i ∧ i + 1 < domain.length ∧ domain.get? i = some 0x2E := by
  rw [emailRegexTest_iff, matches_emailRegex_iff]
  constructor
  · rintro ⟨a, b, c, rfl, ha, hb, hc⟩
    exact emailShape_of_parts a b c ha hb hc
  · intro h
    exact parts_of_emailShape s h

/-! ## Contact form: blank input -/

theorem trim_ne_nil_iff (s : JSString) : trim s ≠ [] ↔ NonBlank s := by
  rw [← truthy_trim_iff]
  unfold truthy
  cases trim s <;> simp

theorem not_nonBlank_of_all_whiteSpace (s : JSString)
    (h : ∀ c ∈ s, isWhiteSpace c = true) : ¬ NonBlank s := by
  rintro ⟨c, hc, hw⟩
  rw [h c hc] at hw
  cases hw

/-- C21: for every form, a name or a message made of white space only gets its `... is
required` error; an email accepted by the pattern is non-empty after trimming; and
`validateForm` accepts exactly when the trimmed name is non-empty, the untrimmed email passes
the pattern test and the trimmed message is non-empty. -/
theorem validateForm_blank_as_missing (f : FormData) :
    ((∀ c ∈ f.name, isWhiteSpace c = true) →
      (validateForm f).1.name = some (js "Name is required")) ∧
    ((∀ c ∈ f.message, isWhiteSpace c = true) →
      (validateForm f).1.message = some (js "Message is required")) ∧
    (emailRegexTest f.email = true → trim f.email ≠ []) ∧
    ((validateForm f).2 = true ↔
      trim f.name ≠ [] ∧ emailRegexTest f.email = true ∧ trim f.message ≠ []) ∧
    (validateForm ⟨js "  ", js "a@b.com", js " "⟩).1 =
      ⟨some (js "Name is required"), Option.none, some (js "Message is required")⟩ := by
  refine ⟨?_, ?_, ?_, ?_, by decide⟩
  · intro h
    exact validateForm_name_of_invalid f (not_nonBlank_of_all_whiteSpace _ h)
  · intro h
    exact validateForm_message_of_invalid f (not_nonBlank_of_all_whiteSpace _ h)
  · intro h
    exact (trim_ne_nil_iff _).2 (nonBlank_of_matches_emailRegex ((emailRegexTest_iff _).1 h))
  · rw [validateForm_accepts_iff, trim_ne_nil_iff, trim_ne_nil_iff, emailRegexTest_iff,
      ← emailValid_iff]
    rfl

/-! ## Theme store: validity after a toggle -/

theorem toggleTheme_theme_valid (st : ThemeStore) :
    (toggleTheme st).1.theme = js "light" ∨ (toggleTheme st).1.theme = js "dark" := by
  rw [toggleTheme_theme]
  by_cases h : st.theme = js "light"
  · exact Or.inr (if_pos h)
  · exact Or.inl (if_neg h)

theorem toggleTimes_succ_valid :
    ∀ (n : Nat) (st : ThemeStore),
      (toggleTimes (n + 1) st).theme = js "light" ∨ (toggleTimes (n + 1) st).theme = js "dark"
  | 0, st => toggleTheme_theme_valid st
  | n + 1, st => toggleTimes_succ_valid n (toggleTheme st).1

/-- C22: for every current preference, valid or not, `toggleTheme` yields `dark` if the old
preference is `light` and `light` otherwise, so the new preference is `light` or `dark`; hence
after one or more calls the preference is valid, whatever string startup restored. -/
theorem toggleTheme_yields_valid (st : ThemeStore) :
    (toggleTheme st).1.theme = (if st.theme = js "light" then js "dark" else js "light") ∧
    ((toggleTheme st).1.theme = js "light" ∨ (toggleTheme st).1.theme = js "dark") ∧
    (∀ n : Nat, (toggleTimes (n + 1) st).theme = js "light" ∨
      (toggleTimes (n + 1) st).theme = js "dark") ∧
    (toggleTheme (startup (LocalStorage.available [(js "theme", js "blue")])).1).1.theme =
      js "light" :=
  ⟨toggleTheme_theme st, toggleTheme_theme_valid st, fun n => toggleTimes_succ_valid n st,
    by decide⟩

/-! ## Navigation bar: links, routes and breakpoints -/

/-- C23: the desktop link row and the mobile menu carry the same five targets in the same
order (`/`, `/products`, `/services`, `/about`, `/contact`), every link target is matched by
exactly one route entry, and every route path is the target of a link. -/
theorem nav_links_agree_with_routes :
    navLinks.map (fun link => link.toPath) =
      [js "/", js "/products", js "/services", js "/about", js "/contact"] ∧
    mobileMenuLinks.map (fun link => link.toPath) = navLinks.map (fun link => link.toPath) ∧
    (∀ link ∈ navLinks, (matchingRoutes link.toPath).length = 1) ∧
    (∀ link ∈ mobileMenuLinks, (matchingRoutes link.toPath).length = 1) ∧
    (∀ r ∈ routes, r.path ∈ navLinks.map (fun link => link.toPath)) ∧
    navLinks.map (fun link => link.toPath) = routes.map (fun r => r.path) := by
  decide

theorem maxWidth_iff (limit width : Nat) : maxWidth limit width = true ↔ width ≤ limit := by
  simp [maxWidth]

/-- C24: at every width from 761 to 768 px the hamburger button is displayed while the mobile
menu computes to `display: none` and the desktop link row stays displayed, so the open menu
shows no link; at every width of at most 760 px or above 768 px the hamburger is displayed
exactly when the desktop link row is hidden. -/
theorem breakpoints_disagree :
    (∀ width : Nat, 761 ≤ width → width ≤ 768 →
      hamburgerDisplay width = Display.block ∧ mobileMenuDisplay width = Display.none ∧
      navLinksDisplay width = Display.flex ∧
      renderedMobileLinks (toggleMenu NavBarState.initial) = mobileMenuLinks ∧
      visibleMobileLinks width (toggleMenu NavBarState.initial) = []) ∧
    (∀ width : Nat, width ≤ 760 ∨ 768 < width →
      (hamburgerDisplay width = Display.block ↔ navLinksDisplay width = Display.none)) ∧
    (∀ width : Nat, width ≤ 760 →
      hamburgerDisplay width = Display.block ∧ mobileMenuDisplay width = Display.flex ∧
      visibleMobileLinks width (toggleMenu NavBarState.initial) = mobileMenuLinks) ∧
    (hamburgerDisplay 761 = Display.block ∧ mobileMenuDisplay 761 = Display.none ∧
      navLinksDisplay 761 = Display.flex) := by
  refine ⟨?_, ?_, ?_, by decide⟩
  · intro width h1 h2
    have ha : maxWidth 768 width = true := (maxWidth_iff _ _).2 h2
    have hb : maxWidth 760 width = false := by
      cases h : maxWidth 760 width
      · rfl
      · have := (maxWidth_iff _ _).1 h
        omega
    simp [hamburgerDisplay, mobileMenuDisplay, navLinksDisplay, visibleMobileLinks, ha, hb]
    decide
  · intro width h
    rcases h with h | h
    · have ha : maxWidth 768 width = true := (maxWidth_iff _ _).2 (by omega)
      have hb : maxWidth 760 width = true := (maxWidth_iff _ _).2 h
      simp [hamburgerDisplay, navLinksDisplay, ha, hb]
    · have ha : maxWidth 768 width = false := by
        cases h2 : maxWidth 768 width
        · rfl
        · have := (maxWidth_iff _ _).1 h2
          omega
      have hb : maxWidth 760 width = false := by
        cases h2 : maxWidth 760 width
        · rfl
        · have := (maxWidth_iff _ _).1 h2
          omega
      simp [hamburgerDisplay, navLinksDisplay, ha, hb]
  · intro width h
    have ha : maxWidth 768 width = true := (maxWidth_iff _ _).2 (by omega)
    have hb : maxWidth 760 width = true := (maxWidth_iff _ _).2 h
    simp [hamburgerDisplay, mobileMenuDisplay, visibleMobileLinks, ha, hb]
    decide

end NImpress
